import Mathlib

/-!
Verification of the accounting computation core of a double-entry bookkeeping
application (react-accounting-app).

The TypeScript sources are shallowly embedded in Lean:

* machine numbers (`number`) are modelled as `Int` for the integral yen
  amounts that the ledger carries; where the sources perform genuinely
  fractional floating-point arithmetic (the tax calculator, the depreciation
  calculators), IEEE-754 binary64 is modelled exactly: every value is an
  exact rational (`Frac`) and every arithmetic operation rounds its exact
  result to 53 significant bits, round-to-nearest ties-to-even (`rnd`);
* JavaScript `Map`s are modelled either as update functions with a default
  value (when only lookups matter) or as association lists (when the key set
  is iterated);
* `Array.prototype.sort` with a `localeCompare` comparator is modelled as the
  stable `List.insertionSort` over the string order on codes;
* JavaScript `Set`s collecting ids are modelled as first-occurrence
  deduplicated lists;
* `uuid` identifiers and `createdAt`/`updatedAt` timestamps are omitted from
  the embedded records: none of the verified computations reads them.
-/

namespace Accounting

/-- Account type union from `src/types/account.ts`. -/
inductive AccountType
  | asset
  | liability
  | equity
  | revenue
  | expense
deriving DecidableEq, Repr

/-- Chart-of-accounts record from `src/types/account.ts` (master-data fields
`description`, `createdAt`, `updatedAt` omitted: unread by the computations). -/
structure Account where
  id : String
  code : String
  name : String
  type : AccountType
deriving DecidableEq, Repr

/-- Journal entry from `src/types/journal.ts` (fields that the verified
computations never read — `id`, sub-account ids, tax fields, timestamps — are
omitted). -/
structure JournalEntry where
  date : String
  description : String
  debitAccountId : String
  creditAccountId : String
  amount : Int
deriving DecidableEq, Repr

/-- Opening balance record from `src/types/openingBalance.ts`: positive =
debit-side opening balance, negative = credit-side. -/
structure OpeningBalance where
  accountId : String
  amount : Int
deriving DecidableEq, Repr

/-- `startsWithList pat l` is true when `pat` is an initial segment of `l`. -/
def startsWithList : List Char → List Char → Bool
  | [], _ => true
  | _ :: _, [] => false
  | a :: as, b :: bs => a == b && startsWithList as bs

/-- `containsSub pat l` is true when `pat` occurs contiguously inside `l`. -/
def containsSub (pat : List Char) : List Char → Bool
  | [] => pat.isEmpty
  | c :: rest => startsWithList pat (c :: rest) || containsSub pat rest

/-- Model of JavaScript `String.prototype.includes`. -/
def strIncludes (s pat : String) : Bool :=
  containsSub pat.toList s.toList

/-! ### IEEE-754 binary64 model

JavaScript numbers are IEEE-754 binary64 values.  In the ranges this
application exercises (magnitudes well inside the normal range, far from
overflow and underflow) every double is an exact rational number, and each
arithmetic operation computes the exact rational result and rounds it to 53
significant bits, round-to-nearest with ties to even.  `Frac` carries such a
value as an unreduced integer fraction (reduction is never needed for
correctness, and keeping the representation primitive lets every statement
below be settled by kernel evaluation); `rnd` is the binary64 rounding, and
`jsAdd`/`jsMul`/`jsDiv` are the double operations. -/

/-- An exact rational value, as an unreduced fraction with positive
denominator in all uses. -/
structure Frac where
  num : Int
  den : Int
deriving DecidableEq, Repr

/-- The double of an integer (exact in the ranges used). -/
def fOfInt (n : Int) : Frac := ⟨n, 1⟩

/-- Build a fraction with a positive denominator. -/
def fmk (a b : Int) : Frac := if b < 0 then ⟨-a, -b⟩ else ⟨a, b⟩

/-- Exact rational addition. -/
def fAdd (x y : Frac) : Frac := ⟨x.num * y.den + y.num * x.den, x.den * y.den⟩

/-- Exact rational subtraction. -/
def fSub (x y : Frac) : Frac := ⟨x.num * y.den - y.num * x.den, x.den * y.den⟩

/-- Exact rational multiplication. -/
def fMul (x y : Frac) : Frac := ⟨x.num * y.num, x.den * y.den⟩

/-- Exact rational division. -/
def fDiv (x y : Frac) : Frac := fmk (x.num * y.den) (x.den * y.num)

/-- Exact rational strict comparison (IEEE `<` compares the exact values of
the operands). -/
def fLt (x y : Frac) : Bool := x.num * y.den < y.num * x.den

/-- Exact floor of a fraction — `Math.floor` on the exact value of a double
argument. -/
def fFloor (x : Frac) : Int := Int.fdiv x.num x.den

/-- Exact negation. -/
def fNeg (x : Frac) : Frac := ⟨-x.num, x.den⟩

/-- Fuelled binary logarithm: `log2Go fuel n = ⌊log₂ n⌋` for `2 ≤ n < 2^fuel`
(structural recursion so that the kernel can evaluate it). -/
def log2Go : Nat → Nat → Nat
  | 0, _ => 0
  | fuel + 1, n => if 2 ≤ n then log2Go fuel (n / 2) + 1 else 0

/-- `⌊log₂ n⌋` with fuel ample for every numerator and denominator the
computations below produce. -/
def natLog2 (n : Nat) : Nat := log2Go 1200 n

/-- The power of two `2^e` as an exact fraction, for either sign of `e`. -/
def pow2 (e : Int) : Frac :=
  if 0 ≤ e then ⟨(2 : Int) ^ e.toNat, 1⟩ else ⟨1, (2 : Int) ^ (-e).toNat⟩

/-- Round a positive rational to 53 significant binary digits, ties to even:
locate the binade `[2^e, 2^(e+1))` of the value, scale it into `[2^52,
2^53)`, and round the scaled value to an integer mantissa. -/
def rndPos (q : Frac) : Frac :=
  let e0 : Int := (natLog2 q.num.toNat : Int) - (natLog2 q.den.toNat : Int)
  let e : Int := if fLt q (pow2 e0) then e0 - 1 else e0
  let scaled : Frac := fMul q (pow2 (52 - e))
  let n : Int := fFloor scaled
  let r : Frac := fSub scaled (fOfInt n)
  let m : Int :=
    if fLt ⟨1, 2⟩ r then n + 1
    else if fLt r ⟨1, 2⟩ then n
    else if n % 2 = 0 then n else n + 1
  fMul (fOfInt m) (pow2 (e - 52))

/-- IEEE-754 binary64 round-to-nearest-even of an exact rational (no
overflow or underflow occurs in the ranges this development exercises). -/
def rnd (q : Frac) : Frac :=
  if q.num = 0 then ⟨0, 1⟩
  else if q.num < 0 then fNeg (rndPos (fNeg q)) else rndPos q

/-- JavaScript `/` on doubles: exact quotient, then binary64 rounding. -/
def jsDiv (x y : Frac) : Frac := rnd (fDiv x y)

/-- JavaScript `*` on doubles: exact product, then binary64 rounding. -/
def jsMul (x y : Frac) : Frac := rnd (fMul x y)

/-- JavaScript `+` on doubles: exact sum, then binary64 rounding. -/
def jsAdd (x y : Frac) : Frac := rnd (fAdd x y)

/-- `Math.round` per ECMA-262: the integer closest to the exact value of the
argument, ties toward `+∞` — that is, `⌊x + 1/2⌋` computed exactly. -/
def jsRound (q : Frac) : Int := fFloor (fAdd q ⟨1, 2⟩)

/-- Tax rate union `0 | 8 | 10` from `src/types/tax.ts`. -/
inductive TaxRate
  | r0
  | r8
  | r10
deriving DecidableEq, Repr

/-- Numeric value of a tax rate. -/
def TaxRate.val : TaxRate → Nat
  | .r0 => 0
  | .r8 => 8
  | .r10 => 10

/-- Tax inclusion mode from `src/types/tax.ts`. -/
inductive TaxIncluded
  | included
  | excluded
deriving DecidableEq, Repr

/-- Tax computation result from `src/types/tax.ts`. -/
structure TaxCalculation where
  baseAmount : Int
  taxAmount : Int
  totalAmount : Int
  taxRate : TaxRate
deriving DecidableEq, Repr

/-- `calculateTax` from `src/utils/taxCalculation.ts`, with its IEEE-754
arithmetic embedded exactly: `rate = taxRate / 100`, `Math.floor(amount / (1
+ rate))` and `Math.floor(amount * rate)` are double divisions, additions and
multiplications (each individually rounded to binary64) followed by the
exact floor.  Amounts are integral yen, exact as doubles. -/
def calculateTax (amount : Int) (taxRate : TaxRate) (taxIncluded : TaxIncluded) :
    TaxCalculation :=
  match taxRate with
  | .r0 => ⟨amount, 0, amount, .r0⟩
  | _ =>
    let rate := jsDiv (fOfInt (taxRate.val : Int)) (fOfInt 100)
    match taxIncluded with
    | .included =>
      let baseAmount := fFloor (jsDiv (fOfInt amount) (jsAdd (fOfInt 1) rate))
      ⟨baseAmount, amount - baseAmount, amount, taxRate⟩
    | .excluded =>
      let taxAmount := fFloor (jsMul (fOfInt amount) rate)
      ⟨amount, taxAmount, amount + taxAmount, taxRate⟩

/-- C3: the claimed identity `base = ⌊amount / (1 + rate/100)⌋` fails on the
program as written, because the division is performed in binary64: at
`calculateTax 33 .r10 .included` the double `10/100` is slightly above
`1/10`, `1 + rate` is slightly above `11/10`, and `33 / (1 + rate)` evaluates
to `29.999999999999996`, so the program returns base 29 and tax 4, while the
exact formula of the claim gives `⌊33 / (11/10)⌋ = ⌊30⌋ = 30` and tax 3 — a
33-yen tax-included price at 10% is exactly 30 yen plus 3 yen tax, so the
float artifact, not the formula, is what the code computes. -/
theorem calculateTax_float_divergence :
    calculateTax 33 .r10 .included = ⟨29, 4, 33, .r10⟩
    ∧ ⌊(33 : ℚ) / (1 + 10 / 100)⌋ = 30
    ∧ (29 : Int) ≠ 30 := by
  refine ⟨by decide, ?_, by decide⟩
  rw [show (33 : ℚ) / (1 + 10 / 100) = 30 by norm_num]
  exact Int.floor_intCast 30

/-! ### String comparison and generic map machinery -/

/-- Lexicographic strict order on char lists, modelling JavaScript `<` on
strings (code-unit comparison; all characters used here are in the BMP). -/
def charListLt : List Char → List Char → Bool
  | [], [] => false
  | [], _ :: _ => true
  | _ :: _, [] => false
  | a :: as, b :: bs =>
    if a.toNat < b.toNat then true
    else if b.toNat < a.toNat then false
    else charListLt as bs

/-- Lexicographic non-strict order on char lists. -/
def charListLe : List Char → List Char → Bool
  | [], _ => true
  | _ :: _, [] => false
  | a :: as, b :: bs =>
    if a.toNat < b.toNat then true
    else if b.toNat < a.toNat then false
    else charListLe as bs

/-- JavaScript string `<`. -/
def strLt (a b : String) : Bool := charListLt a.toList b.toList

/-- JavaScript string `≤` (used for the sort comparator: `localeCompare` is
modelled as code-point comparison). -/
def strLe (a b : String) : Bool := charListLe a.toList b.toList

/-- Pointwise update of a map modelled as a function
(JavaScript `Map.prototype.set`). -/
def setFn {V : Type} (m : String → V) (k : String) (v : V) : String → V :=
  fun x => if x = k then v else m x

/-- Sum of an integer-valued function over a list of keys. -/
def sumIds (L : List String) (g : String → Int) : Int :=
  (L.map g).sum

theorem sumIds_congr {L : List String} {f g : String → Int}
    (h : ∀ x ∈ L, f x = g x) : sumIds L f = sumIds L g := by
  induction L with
  | nil => rfl
  | cons a l ih =>
    simp only [sumIds, List.map_cons, List.sum_cons] at *
    rw [h a (by simp), ih fun x hx => h x (by simp [hx])]

theorem sumIds_cons (a : String) (L : List String) (g : String → Int) :
    sumIds (a :: L) g = g a + sumIds L g := by
  simp [sumIds]

theorem sumIds_append (L₁ L₂ : List String) (g : String → Int) :
    sumIds (L₁ ++ L₂) g = sumIds L₁ g + sumIds L₂ g := by
  simp [sumIds]

/-- Updating one key that occurs exactly once in `L` changes the valued sum by
the difference at that key. -/
theorem sumIds_setFn {V : Type} (ν : V → Int) (m : String → V) (k : String)
    (v : V) (L : List String) (hnd : L.Nodup) (hk : k ∈ L) :
    sumIds L (fun x => ν (setFn m k v x)) =
      sumIds L (fun x => ν (m x)) + (ν v - ν (m k)) := by
  induction L with
  | nil => cases hk
  | cons a l ih =>
    rw [sumIds_cons, sumIds_cons]
    by_cases hak : k = a
    · have hnotin : k ∉ l := by
        intro hkl
        exact (List.nodup_cons.mp hnd).1 (hak ▸ hkl)
      have hl : sumIds l (fun x => ν (setFn m k v x)) = sumIds l fun x => ν (m x) := by
        refine sumIds_congr fun x hx => ?_
        have hne : x ≠ k := fun hxk => hnotin (hxk ▸ hx)
        simp [setFn, hne]
      have hhead : setFn m k v a = v := by simp [setFn, hak]
      rw [hl, hhead, hak]
      ring
    · have hkl : k ∈ l := by
        rcases List.mem_cons.mp hk with h | h
        · exact absurd h hak
        · exact h
      have hne : a ≠ k := fun h => hak h.symm
      have hhead : setFn m k v a = m a := by
        simp [setFn, hne]
      rw [hhead, ih (List.nodup_cons.mp hnd).2 hkl]
      ring

/-- First-occurrence deduplication with an accumulator of already-seen keys
(JavaScript `Set` insertion order). -/
def dedupFirstAux : List String → List String → List String
  | [], _ => []
  | x :: xs, seen =>
    if x ∈ seen then dedupFirstAux xs seen else x :: dedupFirstAux xs (x :: seen)

/-- First-occurrence deduplication (JavaScript `Set` iteration order). -/
def dedupFirst (l : List String) : List String := dedupFirstAux l []

theorem mem_dedupFirstAux {x : String} :
    ∀ {l seen : List String}, x ∈ dedupFirstAux l seen ↔ x ∈ l ∧ x ∉ seen := by
  intro l
  induction l with
  | nil => intro seen; simp [dedupFirstAux]
  | cons a as ih =>
    intro seen
    by_cases h : a ∈ seen
    · rw [dedupFirstAux, if_pos h, ih]
      constructor
      · rintro ⟨hm, hs⟩
        exact ⟨List.mem_cons_of_mem _ hm, hs⟩
      · rintro ⟨hm, hs⟩
        rcases List.mem_cons.mp hm with rfl | hm'
        · exact absurd h hs
        · exact ⟨hm', hs⟩
    · rw [dedupFirstAux, if_neg h]
      simp only [List.mem_cons, ih]
      constructor
      · rintro (rfl | ⟨hm, hs⟩)
        · exact ⟨Or.inl rfl, h⟩
        · exact ⟨Or.inr hm, fun hx => hs (Or.inr hx)⟩
      · rintro ⟨rfl | hm, hs⟩
        · exact Or.inl rfl
        · by_cases hxa : x = a
          · exact Or.inl hxa
          · exact Or.inr ⟨hm, fun hx => hx.elim hxa hs⟩

theorem nodup_dedupFirstAux :
    ∀ (l seen : List String), (dedupFirstAux l seen).Nodup := by
  intro l
  induction l with
  | nil => intro seen; simp [dedupFirstAux]
  | cons a as ih =>
    intro seen
    by_cases h : a ∈ seen
    · simpa [dedupFirstAux, if_pos h] using ih seen
    · simp only [dedupFirstAux, if_neg h, List.nodup_cons]
      refine ⟨fun hmem => ?_, ih (a :: seen)⟩
      exact ((mem_dedupFirstAux.mp hmem).2) (by simp)

theorem mem_dedupFirst {x : String} {l : List String} :
    x ∈ dedupFirst l ↔ x ∈ l := by
  simp [dedupFirst, mem_dedupFirstAux]

theorem nodup_dedupFirst (l : List String) : (dedupFirst l).Nodup :=
  nodup_dedupFirstAux l []

/-! ### Trial balance (`src/components/TrialBalance.tsx`) -/

/-- The date filter of `TrialBalance.tsx` / `FinancialStatements.tsx`:
drop entries strictly before `startDate` or strictly after `endDate`
(string comparison on ISO dates); `none` models an empty filter field. -/
def filterByDate (entries : List JournalEntry) (startDate endDate : Option String) :
    List JournalEntry :=
  entries.filter fun e =>
    !(match startDate with
      | some s => strLt e.date s
      | none => false) &&
    !(match endDate with
      | some s => strLt s e.date
      | none => false)

/-- Lookup in the per-account totals map with the `|| { debit: 0, credit: 0 }`
default of the source. -/
def tbGet (m : String → Option (Int × Int)) (k : String) : Int × Int :=
  (m k).getD (0, 0)

/-- Fold one opening balance into the totals map: positive amounts to the
debit column, otherwise the absolute value to the credit column. -/
def tbApplyOpening (m : String → Option (Int × Int)) (ob : OpeningBalance) :
    String → Option (Int × Int) :=
  let ex := tbGet m ob.accountId
  if 0 < ob.amount then setFn m ob.accountId (some (ex.1 + ob.amount, ex.2))
  else setFn m ob.accountId (some (ex.1, ex.2 + |ob.amount|))

/-- Fold one journal entry into the totals map: debit side then credit side. -/
def tbApplyEntry (m : String → Option (Int × Int)) (e : JournalEntry) :
    String → Option (Int × Int) :=
  let d := tbGet m e.debitAccountId
  let m1 := setFn m e.debitAccountId (some (d.1 + e.amount, d.2))
  let c := tbGet m1 e.creditAccountId
  setFn m1 e.creditAccountId (some (c.1, c.2 + e.amount))

/-- The `accountTotals` map of `balanceData`: opening balances first (when the
include-opening flag is set), then the (already date-filtered) entries. -/
def accountTotalsMap (openings : List OpeningBalance) (flag : Bool)
    (entries : List JournalEntry) : String → Option (Int × Int) :=
  entries.foldl tbApplyEntry
    ((if flag then openings else []).foldl tbApplyOpening fun _ => none)

/-- Account ids referenced by a list of entries, debit side first, in entry
order. -/
def refIds : List JournalEntry → List String
  | [] => []
  | e :: es => e.debitAccountId :: e.creditAccountId :: refIds es

/-- `missingAccountIds` of `TrialBalance.tsx`: ids referenced by the filtered
entries that are absent from the account master, first occurrence order. -/
def missingAccountIds (accounts : List Account) (entries : List JournalEntry) :
    List String :=
  dedupFirst ((refIds entries).filter fun id => !(accounts.any fun a => a.id == id))

/-- A row of the trial balance (`BalanceRow` in `TrialBalance.tsx`). -/
structure BalanceRow where
  accountId : String
  code : String
  name : String
  type : AccountType
  debitTotal : Int
  creditTotal : Int
  debitBalance : Int
  creditBalance : Int
deriving DecidableEq, Repr

/-- Rows for accounts of the master that have totals recorded. -/
def knownRows (accounts : List Account) (m : String → Option (Int × Int)) :
    List BalanceRow :=
  accounts.filterMap fun a =>
    match m a.id with
    | none => none
    | some t => some ⟨a.id, a.code, a.name, a.type, t.1, t.2, 0, 0⟩

/-- Display name of a synthetic unknown-account row. -/
def unknownName (id : String) : String :=
  "不明な科目 (" ++ id.take 8 ++ "...)"

/-- Synthetic rows for ids referenced by entries but absent from the master;
they default to the asset type. -/
def missingRows (m : String → Option (Int × Int)) (missing : List String) :
    List BalanceRow :=
  missing.filterMap fun id =>
    match m id with
    | none => none
    | some t => some ⟨id, "???", unknownName id, .asset, t.1, t.2, 0, 0⟩

/-- Debit-normal account types (asset, expense). -/
def isDebitNormal : AccountType → Bool
  | .asset => true
  | .expense => true
  | _ => false

/-- The balance-column pass of `balanceData`: zero net balance sits in the
debit column for debit-normal types and in the credit column otherwise. -/
def setRowBalances (r : BalanceRow) : BalanceRow :=
  let net := r.debitTotal - r.creditTotal
  if isDebitNormal r.type then
    { r with debitBalance := if 0 ≤ net then net else 0
             creditBalance := if net < 0 then -net else 0 }
  else
    { r with debitBalance := if 0 < net then net else 0
             creditBalance := if net ≤ 0 then -net else 0 }

/-- Sort comparator of `balanceData` (`a.code.localeCompare(b.code)`),
modelled as code-point string order. -/
def rowLe (a b : BalanceRow) : Prop := strLe a.code b.code = true

instance : DecidableRel rowLe := fun a b => by
  unfold rowLe
  infer_instance

/-- `balanceData` of `TrialBalance.tsx`: totals map, known rows, synthetic
unknown rows, code sort, then the balance columns. -/
def balanceData (accounts : List Account) (entries : List JournalEntry)
    (openings : List OpeningBalance) (flag : Bool) (startDate endDate : Option String) :
    List BalanceRow :=
  let fe := filterByDate entries startDate endDate
  let m := accountTotalsMap openings flag fe
  let rows := knownRows accounts m ++ missingRows m (missingAccountIds accounts fe)
  (rows.insertionSort rowLe).map setRowBalances

/-- Column totals of the trial balance (the `totals` reduce). -/
structure TBTotals where
  debitTotal : Int
  creditTotal : Int
  debitBalance : Int
  creditBalance : Int
deriving DecidableEq, Repr

/-- The `totals` reduce of `TrialBalance.tsx`. -/
def tbTotals (rows : List BalanceRow) : TBTotals :=
  rows.foldl
    (fun acc r =>
      ⟨acc.debitTotal + r.debitTotal, acc.creditTotal + r.creditTotal,
       acc.debitBalance + r.debitBalance, acc.creditBalance + r.creditBalance⟩)
    ⟨0, 0, 0, 0⟩

/-! ### Sum lemmas for the trial balance -/

/-- Net (debit − credit) value of a totals-map cell, absent cells counting 0. -/
def netOf (o : Option (Int × Int)) : Int :=
  (o.getD (0, 0)).1 - (o.getD (0, 0)).2

theorem sumIds_zero (L : List String) : sumIds L (fun _ => 0) = 0 := by
  induction L with
  | nil => rfl
  | cons a l ih => rw [sumIds_cons, ih]; ring

theorem sum_map_sub {α : Type} (l : List α) (f g : α → Int) :
    (l.map fun x => f x - g x).sum = (l.map f).sum - (l.map g).sum := by
  induction l with
  | nil => simp
  | cons a as ih => simp [ih]; ring

/-- Processing one entry leaves the net sum over a covering key list
unchanged: the debit side adds what the credit side removes. -/
theorem sumNet_applyEntry (L : List String) (hnd : L.Nodup)
    (m : String → Option (Int × Int)) (e : JournalEntry)
    (hd : e.debitAccountId ∈ L) (hc : e.creditAccountId ∈ L) :
    sumIds L (fun k => netOf (tbApplyEntry m e k)) =
      sumIds L (fun k => netOf (m k)) := by
  unfold tbApplyEntry
  rw [sumIds_setFn netOf _ _ _ L hnd hc, sumIds_setFn netOf _ _ _ L hnd hd]
  simp only [netOf, setFn, tbGet]
  by_cases hdc : e.creditAccountId = e.debitAccountId <;> simp [hdc]

/-- Processing one opening balance adds its signed amount to the net sum. -/
theorem sumNet_applyOpening (L : List String) (hnd : L.Nodup)
    (m : String → Option (Int × Int)) (ob : OpeningBalance)
    (hm : ob.accountId ∈ L) :
    sumIds L (fun k => netOf (tbApplyOpening m ob k)) =
      sumIds L (fun k => netOf (m k)) + ob.amount := by
  unfold tbApplyOpening
  by_cases h : 0 < ob.amount
  · simp only [if_pos h]
    rw [sumIds_setFn netOf _ _ _ L hnd hm]
    simp only [netOf, tbGet, Option.getD_some]
    ring
  · simp only [if_neg h]
    rw [sumIds_setFn netOf _ _ _ L hnd hm]
    simp only [netOf, tbGet, abs_of_nonpos (le_of_not_lt h), Option.getD_some]
    ring

theorem sumNet_foldEntries (es : List JournalEntry) (L : List String)
    (hnd : L.Nodup) (m : String → Option (Int × Int))
    (h : ∀ e ∈ es, e.debitAccountId ∈ L ∧ e.creditAccountId ∈ L) :
    sumIds L (fun k => netOf ((es.foldl tbApplyEntry m) k)) =
      sumIds L (fun k => netOf (m k)) := by
  induction es generalizing m with
  | nil => rfl
  | cons e es ih =>
    rw [List.foldl_cons, ih _ fun x hx => h x (List.mem_cons_of_mem _ hx)]
    exact sumNet_applyEntry L hnd m e (h e (by simp)).1 (h e (by simp)).2

theorem sumNet_foldOpenings (obs : List OpeningBalance) (L : List String)
    (hnd : L.Nodup) (m : String → Option (Int × Int))
    (h : ∀ ob ∈ obs, ob.accountId ∈ L) :
    sumIds L (fun k => netOf ((obs.foldl tbApplyOpening m) k)) =
      sumIds L (fun k => netOf (m k)) + (obs.map OpeningBalance.amount).sum := by
  induction obs generalizing m with
  | nil => simp
  | cons ob obs ih =>
    rw [List.foldl_cons, ih _ fun x hx => h x (List.mem_cons_of_mem _ hx),
      sumNet_applyOpening L hnd m ob (h ob (by simp))]
    simp
    ring

theorem sum_knownRows (accounts : List Account) (m : String → Option (Int × Int)) :
    ((knownRows accounts m).map fun r => r.debitTotal - r.creditTotal).sum =
      sumIds (accounts.map Account.id) (fun k => netOf (m k)) := by
  induction accounts with
  | nil => rfl
  | cons a as ih =>
    rw [knownRows, List.filterMap_cons]
    cases h : m a.id with
    | none =>
      simp only [List.map_cons, sumIds_cons]
      rw [show netOf (m a.id) = 0 by rw [h]; rfl]
      rw [← ih]
      rw [knownRows]
      ring
    | some t =>
      simp only [List.map_cons, List.sum_cons, sumIds_cons]
      rw [show netOf (m a.id) = t.1 - t.2 by rw [h]; rfl]
      rw [← ih]
      rfl

theorem sum_missingRows (missing : List String) (m : String → Option (Int × Int)) :
    ((missingRows m missing).map fun r => r.debitTotal - r.creditTotal).sum =
      sumIds missing (fun k => netOf (m k)) := by
  induction missing with
  | nil => rfl
  | cons id ids ih =>
    rw [missingRows, List.filterMap_cons]
    cases h : m id with
    | none =>
      simp only [List.map_cons, sumIds_cons]
      rw [show netOf (m id) = 0 by rw [h]; rfl]
      rw [← ih]
      rw [missingRows]
      ring
    | some t =>
      simp only [List.map_cons, List.sum_cons, sumIds_cons]
      rw [show netOf (m id) = t.1 - t.2 by rw [h]; rfl]
      rw [← ih]
      rfl

theorem setRowBalances_debitTotal (r : BalanceRow) :
    (setRowBalances r).debitTotal = r.debitTotal := by
  unfold setRowBalances
  by_cases h : isDebitNormal r.type <;> simp [h]

theorem setRowBalances_creditTotal (r : BalanceRow) :
    (setRowBalances r).creditTotal = r.creditTotal := by
  unfold setRowBalances
  by_cases h : isDebitNormal r.type <;> simp [h]

theorem setRowBalances_accountId (r : BalanceRow) :
    (setRowBalances r).accountId = r.accountId := by
  unfold setRowBalances
  by_cases h : isDebitNormal r.type <;> simp [h]

/-- Sorting and the balance-column pass do not change any statistic that only
reads the debit/credit totals of each row. -/
theorem sum_balance_pass (l : List BalanceRow) (f : BalanceRow → Int)
    (hf : ∀ r, f (setRowBalances r) = f r) :
    (((l.insertionSort rowLe).map setRowBalances).map f).sum = (l.map f).sum := by
  rw [List.map_map]
  have h1 : ((l.insertionSort rowLe).map (f ∘ setRowBalances)) =
      ((l.insertionSort rowLe).map f) := List.map_congr_left fun r _ => hf r
  rw [h1]
  exact ((List.perm_insertionSort rowLe l).map f).sum_eq

theorem tbTotals_foldl (rows : List BalanceRow) : ∀ init : TBTotals,
    rows.foldl
      (fun acc r =>
        ⟨acc.debitTotal + r.debitTotal, acc.creditTotal + r.creditTotal,
         acc.debitBalance + r.debitBalance, acc.creditBalance + r.creditBalance⟩)
      init
    = ⟨init.debitTotal + (rows.map (·.debitTotal)).sum,
       init.creditTotal + (rows.map (·.creditTotal)).sum,
       init.debitBalance + (rows.map (·.debitBalance)).sum,
       init.creditBalance + (rows.map (·.creditBalance)).sum⟩ := by
  induction rows with
  | nil => intro init; simp
  | cons r rs ih =>
    intro init
    rw [List.foldl_cons, ih]
    simp only [List.map_cons, List.sum_cons, TBTotals.mk.injEq]
    refine ⟨by ring, by ring, by ring, by ring⟩

theorem tbTotals_debit (rows : List BalanceRow) :
    (tbTotals rows).debitTotal = (rows.map (·.debitTotal)).sum := by
  rw [tbTotals, tbTotals_foldl]
  simp

theorem tbTotals_credit (rows : List BalanceRow) :
    (tbTotals rows).creditTotal = (rows.map (·.creditTotal)).sum := by
  rw [tbTotals, tbTotals_foldl]
  simp

theorem mem_refIds_debit {e : JournalEntry} :
    ∀ {es : List JournalEntry}, e ∈ es → e.debitAccountId ∈ refIds es := by
  intro es
  induction es with
  | nil => intro h; cases h
  | cons x xs ih =>
    intro h
    rcases List.mem_cons.mp h with rfl | h'
    · simp [refIds]
    · simp only [refIds, List.mem_cons]
      exact Or.inr (Or.inr (ih h'))

theorem mem_refIds_credit {e : JournalEntry} :
    ∀ {es : List JournalEntry}, e ∈ es → e.creditAccountId ∈ refIds es := by
  intro es
  induction es with
  | nil => intro h; cases h
  | cons x xs ih =>
    intro h
    rcases List.mem_cons.mp h with rfl | h'
    · simp [refIds]
    · simp only [refIds, List.mem_cons]
      exact Or.inr (Or.inr (ih h'))

/-- Membership in `missingAccountIds`: exactly the referenced ids that are
absent from the account master. -/
theorem mem_missingAccountIds {accounts : List Account} {es : List JournalEntry}
    {id : String} :
    id ∈ missingAccountIds accounts es ↔
      id ∈ refIds es ∧ id ∉ accounts.map Account.id := by
  rw [missingAccountIds, mem_dedupFirst, List.mem_filter]
  have hiff : ((accounts.any fun a => a.id == id) = false) ↔
      id ∉ accounts.map Account.id := by
    rw [List.any_eq_false]
    constructor
    · intro h hmem
      rcases List.mem_map.mp hmem with ⟨a, ha, rfl⟩
      exact h a ha (by simp)
    · intro h a ha hbeq
      exact h (List.mem_map.mpr ⟨a, ha, by simpa using hbeq⟩)
  constructor
  · rintro ⟨h1, h2⟩
    exact ⟨h1, hiff.mp (by simpa using h2)⟩
  · rintro ⟨h1, h2⟩
    exact ⟨h1, by simpa using hiff.mpr h2⟩

/-- Shared closure lemma: under distinct master ids and covered, zero-sum
opening balances, the trial-balance columns reconcile. -/
theorem tbClosureAux
    (accounts : List Account) (entries : List JournalEntry)
    (openings : List OpeningBalance) (flag : Bool) (sd ed : Option String)
    (hnd : (accounts.map Account.id).Nodup)
    (hsum : flag = true → (openings.map OpeningBalance.amount).sum = 0)
    (href : flag = true → ∀ ob ∈ openings,
      ob.accountId ∈ accounts.map Account.id ∨
        ob.accountId ∈ refIds (filterByDate entries sd ed)) :
    (tbTotals (balanceData accounts entries openings flag sd ed)).debitTotal
      = (tbTotals (balanceData accounts entries openings flag sd ed)).creditTotal
    ∧ ((balanceData accounts entries openings flag sd ed).map
        fun r => r.debitTotal - r.creditTotal).sum = 0 := by
  have hkey : ((balanceData accounts entries openings flag sd ed).map
      fun r => r.debitTotal - r.creditTotal).sum = 0 := by
    set fe := filterByDate entries sd ed with hfe
    set missing := missingAccountIds accounts fe with hmissing
    set L := accounts.map Account.id ++ missing with hL
    have hndM : missing.Nodup := nodup_dedupFirst _
    have hdisj : (accounts.map Account.id).Disjoint missing := by
      intro x hx hmem
      exact (mem_missingAccountIds.mp hmem).2 hx
    have hndL : L.Nodup := List.nodup_append.mpr ⟨hnd, hndM, hdisj⟩
    have hco : ∀ id, id ∈ refIds fe → id ∈ L := by
      intro id hid
      by_cases hacc : id ∈ accounts.map Account.id
      · exact List.mem_append_left _ hacc
      · exact List.mem_append_right _ (mem_missingAccountIds.mpr ⟨hid, hacc⟩)
    have hentry : ∀ e ∈ fe, e.debitAccountId ∈ L ∧ e.creditAccountId ∈ L :=
      fun e he => ⟨hco _ (mem_refIds_debit he), hco _ (mem_refIds_credit he)⟩
    have hopen : ∀ ob ∈ (if flag then openings else []), ob.accountId ∈ L := by
      cases flag with
      | false => simp
      | true =>
        simp only [if_pos rfl]
        intro ob hob
        rcases href rfl ob hob with h | h
        · exact List.mem_append_left _ h
        · exact hco _ h
    have hopensum : ((if flag then openings else []).map OpeningBalance.amount).sum = 0 := by
      cases flag with
      | false => simp
      | true => simpa using hsum rfl
    rw [balanceData]
    rw [sum_balance_pass _ _ fun r => by
      rw [setRowBalances_debitTotal, setRowBalances_creditTotal]]
    rw [List.map_append, List.sum_append, sum_knownRows, sum_missingRows]
    rw [← sumIds_append]
    rw [← hL]
    show sumIds L (fun k => netOf ((accountTotalsMap openings flag fe) k)) = 0
    rw [accountTotalsMap]
    rw [sumNet_foldEntries fe L hndL _ hentry]
    rw [sumNet_foldOpenings _ L hndL _ hopen]
    rw [hopensum]
    have : sumIds L (fun k => netOf ((fun _ => none) k)) = sumIds L fun _ => 0 :=
      sumIds_congr fun x _ => rfl
    rw [this, sumIds_zero]
    ring
  constructor
  · rw [tbTotals_debit, tbTotals_credit]
    have := sum_map_sub (balanceData accounts entries openings flag sd ed)
      (fun r => r.debitTotal) (fun r => r.creditTotal)
    rw [hkey] at this
    linarith [this]
  · exact hkey

/-- C1 (amended): for every journal-entry list, account master with distinct
ids, and opening-balance set whose amounts sum to zero and whose account ids
are all either in the master or referenced by the date-filtered entries
(whenever the include-opening flag is set), the trial-balance aggregation
satisfies double-entry closure: the total debit column equals the total
credit column, equivalently the sum over all rows of rawBalance
(debitTotal − creditTotal) is 0, for any date-filtered subset of the
entries. -/
theorem trialBalance_closure
    (accounts : List Account) (entries : List JournalEntry)
    (openings : List OpeningBalance) (flag : Bool) (sd ed : Option String)
    (hnd : (accounts.map Account.id).Nodup)
    (hsum : flag = true → (openings.map OpeningBalance.amount).sum = 0)
    (href : flag = true → ∀ ob ∈ openings,
      ob.accountId ∈ accounts.map Account.id ∨
        ob.accountId ∈ refIds (filterByDate entries sd ed)) :
    (tbTotals (balanceData accounts entries openings flag sd ed)).debitTotal
      = (tbTotals (balanceData accounts entries openings flag sd ed)).creditTotal
    ∧ ((balanceData accounts entries openings flag sd ed).map
        fun r => r.debitTotal - r.creditTotal).sum = 0 :=
  tbClosureAux accounts entries openings flag sd ed hnd hsum href

/-- C1 witness: scenario with opening balances Cash +500 / Capital −500 and
one entry debit Expense 200 / credit Cash 200; the trial balance reconciles. -/
theorem trialBalance_closure_witness :
    (tbTotals (balanceData
        [⟨"cash", "101", "現金", .asset⟩, ⟨"cap", "301", "資本金", .equity⟩,
         ⟨"exp", "501", "消耗品費", .expense⟩]
        [⟨"2024-05-01", "買い物", "exp", "cash", 200⟩]
        [⟨"cash", 500⟩, ⟨"cap", -500⟩] true none none)).debitTotal
      = (tbTotals (balanceData
        [⟨"cash", "101", "現金", .asset⟩, ⟨"cap", "301", "資本金", .equity⟩,
         ⟨"exp", "501", "消耗品費", .expense⟩]
        [⟨"2024-05-01", "買い物", "exp", "cash", 200⟩]
        [⟨"cash", 500⟩, ⟨"cap", -500⟩] true none none)).creditTotal :=
  (trialBalance_closure
    [⟨"cash", "101", "現金", .asset⟩, ⟨"cap", "301", "資本金", .equity⟩,
     ⟨"exp", "501", "消耗品費", .expense⟩]
    [⟨"2024-05-01", "買い物", "exp", "cash", 200⟩]
    [⟨"cash", 500⟩, ⟨"cap", -500⟩] true none none
    (by decide) (fun _ => by decide) (fun _ => by decide)).1

/-- C1 counterexample: with the unbalanced opening-balance set
{Cash : +500} alone (and no entries), the trial balance does not reconcile:
the debit column totals 500 against a credit column of 0, so the claim as
stated — closure for every opening-balance set — is false. -/
theorem trialBalance_closure_cex :
    (tbTotals (balanceData [⟨"cash", "101", "現金", .asset⟩] []
        [⟨"cash", 500⟩] true none none)).debitTotal = 500
    ∧ (tbTotals (balanceData [⟨"cash", "101", "現金", .asset⟩] []
        [⟨"cash", 500⟩] true none none)).creditTotal = 0
    ∧ ¬ ((tbTotals (balanceData [⟨"cash", "101", "現金", .asset⟩] []
          [⟨"cash", 500⟩] true none none)).debitTotal
        = (tbTotals (balanceData [⟨"cash", "101", "現金", .asset⟩] []
          [⟨"cash", 500⟩] true none none)).creditTotal)
    ∧ ¬ (((balanceData [⟨"cash", "101", "現金", .asset⟩] []
          [⟨"cash", 500⟩] true none none).map
            fun r => r.debitTotal - r.creditTotal).sum = 0) := by
  refine ⟨by decide, by decide, by decide, by decide⟩

/-! ### Pointwise totals (for the unknown-account claim) -/

/-- Entry-sourced debit total of an account id. -/
def entryDebitTotal (es : List JournalEntry) (k : String) : Int :=
  ((es.filter fun e => e.debitAccountId == k).map JournalEntry.amount).sum

/-- Entry-sourced credit total of an account id. -/
def entryCreditTotal (es : List JournalEntry) (k : String) : Int :=
  ((es.filter fun e => e.creditAccountId == k).map JournalEntry.amount).sum

/-- Opening-balance debit total recorded under an account id. -/
def openingDebitTotal (obs : List OpeningBalance) (k : String) : Int :=
  ((obs.filter fun ob => ob.accountId == k).map
    fun ob => if 0 < ob.amount then ob.amount else 0).sum

/-- Opening-balance credit total recorded under an account id. -/
def openingCreditTotal (obs : List OpeningBalance) (k : String) : Int :=
  ((obs.filter fun ob => ob.accountId == k).map
    fun ob => if 0 < ob.amount then 0 else |ob.amount|).sum

theorem tbGet_applyEntry (m : String → Option (Int × Int)) (e : JournalEntry)
    (k : String) :
    tbGet (tbApplyEntry m e) k =
      ((tbGet m k).1 + (if e.debitAccountId = k then e.amount else 0),
       (tbGet m k).2 + (if e.creditAccountId = k then e.amount else 0)) := by
  simp only [tbApplyEntry, tbGet, setFn]
  split_ifs <;> subst_vars <;> simp_all

theorem tbGet_applyOpening (m : String → Option (Int × Int)) (ob : OpeningBalance)
    (k : String) :
    tbGet (tbApplyOpening m ob) k =
      ((tbGet m k).1 +
        (if ob.accountId = k then (if 0 < ob.amount then ob.amount else 0) else 0),
       (tbGet m k).2 +
        (if ob.accountId = k then (if 0 < ob.amount then 0 else |ob.amount|) else 0)) := by
  simp only [tbApplyOpening, tbGet, setFn]
  split_ifs <;> subst_vars <;> simp_all [setFn, eq_comm]

theorem tbGet_foldEntries (es : List JournalEntry)
    (m : String → Option (Int × Int)) (k : String) :
    tbGet (es.foldl tbApplyEntry m) k =
      ((tbGet m k).1 + entryDebitTotal es k, (tbGet m k).2 + entryCreditTotal es k) := by
  induction es generalizing m with
  | nil => simp [entryDebitTotal, entryCreditTotal, tbGet]
  | cons e es ih =>
    rw [List.foldl_cons, ih, tbGet_applyEntry]
    have hd : entryDebitTotal (e :: es) k =
        (if e.debitAccountId = k then e.amount else 0) + entryDebitTotal es k := by
      by_cases h : e.debitAccountId = k <;>
        simp [entryDebitTotal, List.filter_cons, h]
    have hc : entryCreditTotal (e :: es) k =
        (if e.creditAccountId = k then e.amount else 0) + entryCreditTotal es k := by
      by_cases h : e.creditAccountId = k <;>
        simp [entryCreditTotal, List.filter_cons, h]
    rw [hd, hc]
    refine Prod.ext ?_ ?_ <;> simp <;> ring

theorem tbGet_foldOpenings (obs : List OpeningBalance)
    (m : String → Option (Int × Int)) (k : String) :
    tbGet (obs.foldl tbApplyOpening m) k =
      ((tbGet m k).1 + openingDebitTotal obs k,
       (tbGet m k).2 + openingCreditTotal obs k) := by
  induction obs generalizing m with
  | nil => simp [openingDebitTotal, openingCreditTotal, tbGet]
  | cons ob obs ih =>
    rw [List.foldl_cons, ih, tbGet_applyOpening]
    have hd : openingDebitTotal (ob :: obs) k =
        (if ob.accountId = k then (if 0 < ob.amount then ob.amount else 0) else 0)
          + openingDebitTotal obs k := by
      by_cases h : ob.accountId = k <;>
        simp [openingDebitTotal, List.filter_cons, h]
    have hc : openingCreditTotal (ob :: obs) k =
        (if ob.accountId = k then (if 0 < ob.amount then 0 else |ob.amount|) else 0)
          + openingCreditTotal obs k := by
      by_cases h : ob.accountId = k <;>
        simp [openingCreditTotal, List.filter_cons, h]
    rw [hd, hc]
    refine Prod.ext ?_ ?_ <;> simp <;> ring

theorem isSome_applyEntry (m : String → Option (Int × Int)) (e : JournalEntry)
    (k : String)
    (h : k = e.debitAccountId ∨ k = e.creditAccountId ∨ (m k).isSome = true) :
    ((tbApplyEntry m e) k).isSome = true := by
  simp only [tbApplyEntry, tbGet, setFn]
  rcases h with h | h | h <;> split_ifs <;> subst_vars <;> simp_all

/-- An id referenced by some processed entry is present in the totals map. -/
theorem isSome_foldEntries (es : List JournalEntry)
    (m : String → Option (Int × Int)) (k : String)
    (h : k ∈ refIds es ∨ (m k).isSome = true) :
    ((es.foldl tbApplyEntry m) k).isSome = true := by
  induction es generalizing m with
  | nil =>
    rcases h with h | h
    · cases h
    · exact h
  | cons e es ih =>
    rw [List.foldl_cons]
    refine ih _ ?_
    rcases h with h | h
    · rcases List.mem_cons.mp h with rfl | h'
      · exact Or.inr (isSome_applyEntry m e _ (Or.inl rfl))
      · rcases List.mem_cons.mp h' with rfl | h''
        · exact Or.inr (isSome_applyEntry m e _ (Or.inr (Or.inl rfl)))
        · exact Or.inl h''
    · exact Or.inr (isSome_applyEntry m e k (Or.inr (Or.inr h)))

theorem nodup_missingAccountIds (accounts : List Account)
    (es : List JournalEntry) : (missingAccountIds accounts es).Nodup :=
  nodup_dedupFirst _

theorem mem_knownRows {accounts : List Account} {m : String → Option (Int × Int)}
    {r : BalanceRow} (h : r ∈ knownRows accounts m) :
    r.accountId ∈ accounts.map Account.id := by
  rcases List.mem_filterMap.mp h with ⟨a, ha, heq⟩
  cases hm : m a.id with
  | none => rw [hm] at heq; cases heq
  | some t =>
    rw [hm] at heq
    cases heq
    exact List.mem_map.mpr ⟨a, ha, rfl⟩

theorem mem_missingRows {missing : List String} {m : String → Option (Int × Int)}
    {r : BalanceRow} (h : r ∈ missingRows m missing) :
    r.accountId ∈ missing ∧ m r.accountId = some (r.debitTotal, r.creditTotal) := by
  rcases List.mem_filterMap.mp h with ⟨id, hid, heq⟩
  cases hm : m id with
  | none => rw [hm] at heq; cases heq
  | some t =>
    rw [hm] at heq
    cases heq
    exact ⟨hid, hm⟩

theorem countP_knownRows_eq_zero (accounts : List Account)
    (m : String → Option (Int × Int)) (id0 : String)
    (h : id0 ∉ accounts.map Account.id) :
    (knownRows accounts m).countP (fun r => r.accountId == id0) = 0 := by
  refine List.countP_eq_zero.mpr fun r hr => ?_
  have := mem_knownRows hr
  simp only [beq_iff_eq]
  intro hEq
  exact h (hEq ▸ this)

theorem countP_missingRows_eq_one (missing : List String)
    (m : String → Option (Int × Int)) (id0 : String) (hnd : missing.Nodup)
    (hmem : id0 ∈ missing) (hsome : (m id0).isSome = true) :
    (missingRows m missing).countP (fun r => r.accountId == id0) = 1 := by
  induction missing with
  | nil => cases hmem
  | cons x xs ih =>
    rw [missingRows, List.filterMap_cons]
    rcases List.mem_cons.mp hmem with rfl | hmem'
    · cases hm : m id0 with
      | none => rw [hm] at hsome; cases hsome
      | some t =>
        simp only [hm, List.countP_cons]
        have hzero : (missingRows m xs).countP (fun r => r.accountId == id0) = 0 := by
          refine List.countP_eq_zero.mpr fun r hr => ?_
          have hin := (mem_missingRows hr).1
          simp only [beq_iff_eq]
          intro hEq
          exact (List.nodup_cons.mp hnd).1 (hEq ▸ hin)
        show ((missingRows m xs).countP fun r => r.accountId == id0) + _ = 1
        rw [hzero]
        simp
    · have hx : x ≠ id0 := fun hEq => (List.nodup_cons.mp hnd).1 (hEq ▸ hmem')
      have htail := ih (List.nodup_cons.mp hnd).2 hmem'
      cases hm : m x with
      | none => exact htail
      | some t =>
        rw [List.countP_cons]
        show ((missingRows m xs).countP fun r => r.accountId == id0) + _ = 1
        rw [htail]
        simp [hx]

/-- C7 (amended): for every input whose account master has distinct ids, if
the date-filtered entries reference an id absent from the master, the trial
balance still succeeds: it contains exactly one synthetic row for that
unknown id, carrying the entry-sourced debit/credit totals plus any
opening-balance amounts recorded under that id (exactly the entry-sourced
totals whenever no opening balance names the id or the flag is off); the
list of unknown ids signalled as a warning is nonempty; and — provided the
opening balances sum to zero and reference master or entry ids — the overall
Σdebit == Σcredit reconciliation still holds. -/
theorem trialBalance_unknownAccount
    (accounts : List Account) (entries : List JournalEntry)
    (openings : List OpeningBalance) (flag : Bool) (sd ed : Option String)
    (id0 : String)
    (hnd : (accounts.map Account.id).Nodup)
    (hid0 : id0 ∉ accounts.map Account.id)
    (href0 : id0 ∈ refIds (filterByDate entries sd ed))
    (hsum : flag = true → (openings.map OpeningBalance.amount).sum = 0)
    (href : flag = true → ∀ ob ∈ openings,
      ob.accountId ∈ accounts.map Account.id ∨
        ob.accountId ∈ refIds (filterByDate entries sd ed)) :
    ((balanceData accounts entries openings flag sd ed).countP
        fun r => r.accountId == id0) = 1
    ∧ (∀ r ∈ balanceData accounts entries openings flag sd ed, r.accountId = id0 →
        r.debitTotal = openingDebitTotal (if flag then openings else []) id0
            + entryDebitTotal (filterByDate entries sd ed) id0
        ∧ r.creditTotal = openingCreditTotal (if flag then openings else []) id0
            + entryCreditTotal (filterByDate entries sd ed) id0)
    ∧ missingAccountIds accounts (filterByDate entries sd ed) ≠ []
    ∧ (tbTotals (balanceData accounts entries openings flag sd ed)).debitTotal
        = (tbTotals (balanceData accounts entries openings flag sd ed)).creditTotal := by
  have hmemMissing : id0 ∈ missingAccountIds accounts (filterByDate entries sd ed) :=
    mem_missingAccountIds.mpr ⟨href0, hid0⟩
  have hsome : ((accountTotalsMap openings flag (filterByDate entries sd ed)) id0).isSome
      = true :=
    isSome_foldEntries _ _ id0 (Or.inl href0)
  have hget : tbGet (accountTotalsMap openings flag (filterByDate entries sd ed)) id0
      = (openingDebitTotal (if flag then openings else []) id0
          + entryDebitTotal (filterByDate entries sd ed) id0,
         openingCreditTotal (if flag then openings else []) id0
          + entryCreditTotal (filterByDate entries sd ed) id0) := by
    rw [accountTotalsMap, tbGet_foldEntries, tbGet_foldOpenings]
    show ((((0 : Int), (0 : Int)).1 + _) + _, (((0 : Int), (0 : Int)).2 + _) + _) = _
    simp
  refine ⟨?_, ?_, List.ne_nil_of_mem hmemMissing, ?_⟩
  · rw [balanceData, List.countP_map]
    have hcomp : ((fun r => r.accountId == id0) ∘ setRowBalances)
        = fun r : BalanceRow => r.accountId == id0 := by
      funext r
      simp [Function.comp, setRowBalances_accountId]
    rw [hcomp, (List.perm_insertionSort rowLe _).countP_eq, List.countP_append,
      countP_knownRows_eq_zero _ _ _ hid0,
      countP_missingRows_eq_one _ _ _ (nodup_missingAccountIds accounts _)
        hmemMissing hsome]
  · intro r hr hrid
    rw [balanceData] at hr
    rcases List.mem_map.mp hr with ⟨r', hr', rfl⟩
    have hr'' : r' ∈ knownRows accounts
          (accountTotalsMap openings flag (filterByDate entries sd ed))
        ++ missingRows (accountTotalsMap openings flag (filterByDate entries sd ed))
          (missingAccountIds accounts (filterByDate entries sd ed)) :=
      (List.perm_insertionSort rowLe _).mem_iff.mp hr'
    rw [setRowBalances_accountId] at hrid
    rcases List.mem_append.mp hr'' with hk | hm
    · exact absurd (hrid ▸ mem_knownRows hk) hid0
    · have := (mem_missingRows hm).2
      rw [hrid] at this
      have hval : tbGet (accountTotalsMap openings flag (filterByDate entries sd ed)) id0
          = (r'.debitTotal, r'.creditTotal) := by
        rw [tbGet, this]
        rfl
      rw [hget] at hval
      rw [setRowBalances_debitTotal, setRowBalances_creditTotal]
      exact ⟨(Prod.mk.injEq _ _ _ _ ▸ hval).1.symm, (Prod.mk.injEq _ _ _ _ ▸ hval).2.symm⟩
  · exact (tbClosureAux accounts entries openings flag sd ed hnd hsum href).1

/-- C7 witness: an entry debits the unknown id "ghost" against Cash, and an
opening balance of +50 is also recorded under "ghost"; the synthetic row
carries 50 + 100 on the debit side and the warning list is nonempty. -/
theorem trialBalance_unknownAccount_witness :
    ((balanceData [⟨"cash", "101", "現金", .asset⟩]
        [⟨"2024-05-01", "x", "ghost", "cash", 100⟩]
        [⟨"ghost", 50⟩, ⟨"cash", -50⟩] true none none).countP
      fun r => r.accountId == "ghost") = 1
    ∧ missingAccountIds [⟨"cash", "101", "現金", .asset⟩]
        (filterByDate [⟨"2024-05-01", "x", "ghost", "cash", 100⟩] none none) ≠ [] :=
  ⟨(trialBalance_unknownAccount [⟨"cash", "101", "現金", .asset⟩]
      [⟨"2024-05-01", "x", "ghost", "cash", 100⟩]
      [⟨"ghost", 50⟩, ⟨"cash", -50⟩] true none none "ghost"
      (by decide) (by decide) (by decide)
      (fun _ => by decide) (fun _ => by decide)).1,
   (trialBalance_unknownAccount [⟨"cash", "101", "現金", .asset⟩]
      [⟨"2024-05-01", "x", "ghost", "cash", 100⟩]
      [⟨"ghost", 50⟩, ⟨"cash", -50⟩] true none none "ghost"
      (by decide) (by decide) (by decide)
      (fun _ => by decide) (fun _ => by decide)).2.2.1⟩

/-- C7 counterexample: claim as stated says the synthetic row carries exactly
the entry-sourced totals with no opening balance folded in; but with an
opening balance of +50 recorded under the unknown id "ghost" and a single
entry debiting "ghost" 100, the synthetic row's debit total is 150, not
100. -/
theorem trialBalance_unknownAccount_cex :
    ((balanceData [⟨"cash", "101", "現金", .asset⟩]
        [⟨"2024-05-01", "x", "ghost", "cash", 100⟩]
        [⟨"ghost", 50⟩, ⟨"cash", -50⟩] true none none).map
      fun r => (r.accountId, r.debitTotal, r.creditTotal))
      = [("cash", 0, 150), ("ghost", 150, 0)]
    ∧ entryDebitTotal (filterByDate [⟨"2024-05-01", "x", "ghost", "cash", 100⟩] none none)
        "ghost" = 100
    ∧ ¬ (∀ r ∈ balanceData [⟨"cash", "101", "現金", .asset⟩]
          [⟨"2024-05-01", "x", "ghost", "cash", 100⟩]
          [⟨"ghost", 50⟩, ⟨"cash", -50⟩] true none none,
        r.accountId = "ghost" →
          r.debitTotal = entryDebitTotal
            (filterByDate [⟨"2024-05-01", "x", "ghost", "cash", 100⟩] none none) "ghost") := by
  refine ⟨by decide, by decide, by decide⟩

/-! ### Financial statements (`src/components/FinancialStatements.tsx`) -/

/-- Balance-sheet account types. -/
def isBSType : AccountType → Bool
  | .asset => true
  | .liability => true
  | .equity => true
  | _ => false

/-- Fold one opening balance into the raw-balance map; applied only when the
account exists in the master and is a balance-sheet account. -/
def fsApplyOpening (accounts : List Account) (m : String → Int)
    (ob : OpeningBalance) : String → Int :=
  match accounts.find? fun a => a.id == ob.accountId with
  | some a =>
    if isBSType a.type then setFn m ob.accountId (m ob.accountId + ob.amount) else m
  | none => m

/-- Fold one journal entry into the raw-balance map: debit adds, credit
subtracts, for any referenced id. -/
def fsApplyEntry (m : String → Int) (e : JournalEntry) : String → Int :=
  let m1 := setFn m e.debitAccountId (m e.debitAccountId + e.amount)
  setFn m1 e.creditAccountId (m1 e.creditAccountId - e.amount)

/-- The raw-balance map of `accountBalances`. -/
def fsBalances (accounts : List Account) (entries : List JournalEntry)
    (openings : List OpeningBalance) (flag : Bool) : String → Int :=
  entries.foldl fsApplyEntry
    ((if flag then openings else []).foldl (fsApplyOpening accounts) fun _ => 0)

/-- A display row of the financial statements (`AccountBalance`). -/
structure AccountBalance where
  id : String
  code : String
  name : String
  type : AccountType
  balance : Int
deriving DecidableEq, Repr

/-- Sort comparator of `accountBalances`. -/
def abLe (a b : AccountBalance) : Prop := strLe a.code b.code = true

instance : DecidableRel abLe := fun a b => by
  unfold abLe
  infer_instance

/-- One display row of `accountBalances`: skip zero raw balances, flip the
sign for credit-normal types. -/
def fsRowOf (m : String → Int) (a : Account) : Option AccountBalance :=
  if m a.id = 0 then none
  else some ⟨a.id, a.code, a.name, a.type,
    if isDebitNormal a.type then m a.id else -(m a.id)⟩

/-- `accountBalances` of `FinancialStatements.tsx`: display balances of the
master accounts with nonzero raw balance, sorted by code. -/
def accountBalances (accounts : List Account) (entries : List JournalEntry)
    (openings : List OpeningBalance) (flag : Bool) (startDate endDate : Option String) :
    List AccountBalance :=
  let fe := filterByDate entries startDate endDate
  let m := fsBalances accounts fe openings flag
  (accounts.filterMap (fsRowOf m)).insertionSort abLe

/-- The `reduce((sum, a) => sum + a.balance, 0)` accumulations. -/
def sumBal (rows : List AccountBalance) : Int :=
  rows.foldl (fun s r => s + r.balance) 0

/-- Income-statement data (`plData`). -/
structure PLData where
  revenue : List AccountBalance
  expense : List AccountBalance
  totalRevenue : Int
  totalExpense : Int
  netIncome : Int
deriving Repr

/-- `plData` of `FinancialStatements.tsx`. -/
def plData (rows : List AccountBalance) : PLData :=
  let revenue := rows.filter fun a => a.type == .revenue
  let expense := rows.filter fun a => a.type == .expense
  let totalRevenue := sumBal revenue
  let totalExpense := sumBal expense
  ⟨revenue, expense, totalRevenue, totalExpense, totalRevenue - totalExpense⟩

/-- Balance-sheet data (`bsData`); `totalEquity` already carries the injected
current-period net income. -/
structure BSData where
  assets : List AccountBalance
  liabilities : List AccountBalance
  equity : List AccountBalance
  totalAssets : Int
  totalLiabilities : Int
  totalEquity : Int
  netIncome : Int
deriving Repr

/-- `bsData` of `FinancialStatements.tsx`. -/
def bsData (rows : List AccountBalance) : BSData :=
  let assets := rows.filter fun a => a.type == .asset
  let liabilities := rows.filter fun a => a.type == .liability
  let equity := rows.filter fun a => a.type == .equity
  let totalAssets := sumBal assets
  let totalLiabilities := sumBal liabilities
  let totalEquity := sumBal equity
  ⟨assets, liabilities, equity, totalAssets, totalLiabilities,
   totalEquity + (plData rows).netIncome, (plData rows).netIncome⟩

theorem sumBal_foldl (rows : List AccountBalance) : ∀ init : Int,
    rows.foldl (fun s r => s + r.balance) init = init + (rows.map (·.balance)).sum := by
  induction rows with
  | nil => intro init; simp
  | cons r rs ih =>
    intro init
    rw [List.foldl_cons, ih]
    simp
    ring

theorem sumBal_eq (rows : List AccountBalance) :
    sumBal rows = (rows.map (·.balance)).sum := by
  rw [sumBal, sumBal_foldl]
  simp

theorem sum_map_neg {α : Type} (l : List α) (f : α → Int) :
    (l.map fun x => -f x).sum = -(l.map f).sum := by
  induction l with
  | nil => simp
  | cons a as ih => simp [ih]; ring

theorem sumFs_applyEntry (L : List String) (hnd : L.Nodup) (m : String → Int)
    (e : JournalEntry) (hd : e.debitAccountId ∈ L) (hc : e.creditAccountId ∈ L) :
    sumIds L (fsApplyEntry m e) = sumIds L m := by
  unfold fsApplyEntry
  rw [sumIds_setFn (fun x : Int => x) _ _ _ L hnd hc,
    sumIds_setFn (fun x : Int => x) _ _ _ L hnd hd]
  simp only [setFn]
  by_cases hdc : e.creditAccountId = e.debitAccountId <;> simp [hdc]

/-- Given distinct master ids, an opening balance naming a balance-sheet
account of the master adds its amount to the raw-balance sum. -/
theorem sumFs_applyOpening (accounts : List Account) (L : List String)
    (hnd : L.Nodup) (hndacc : (accounts.map Account.id).Nodup) (m : String → Int)
    (ob : OpeningBalance) (hmem : ob.accountId ∈ L)
    (hBS : ∃ a ∈ accounts, a.id = ob.accountId ∧ isBSType a.type = true) :
    sumIds L (fsApplyOpening accounts m ob) = sumIds L m + ob.amount := by
  rcases hBS with ⟨a, ha, haid, haBS⟩
  have hfind : (accounts.find? fun x => x.id == ob.accountId).isSome = true := by
    rw [List.find?_isSome]
    exact ⟨a, ha, by simp [haid]⟩
  rcases Option.isSome_iff_exists.mp hfind with ⟨a', ha'⟩
  have ha'mem : a' ∈ accounts := List.mem_of_find?_eq_some ha'
  have ha'id : a'.id = ob.accountId := by
    have := List.find?_some ha'
    simpa using this
  have haa : a' = a :=
    List.inj_on_of_nodup_map hndacc ha'mem ha (by rw [ha'id, haid])
  have hred : fsApplyOpening accounts m ob
      = setFn m ob.accountId (m ob.accountId + ob.amount) := by
    unfold fsApplyOpening
    rw [ha', haa]
    simp [haBS]
  rw [hred, sumIds_setFn (fun x : Int => x) _ _ _ L hnd hmem]
  ring

theorem sumFs_foldEntries (es : List JournalEntry) (L : List String)
    (hnd : L.Nodup) (m : String → Int)
    (h : ∀ e ∈ es, e.debitAccountId ∈ L ∧ e.creditAccountId ∈ L) :
    sumIds L (es.foldl fsApplyEntry m) = sumIds L m := by
  induction es generalizing m with
  | nil => rfl
  | cons e es ih =>
    rw [List.foldl_cons, ih _ fun x hx => h x (List.mem_cons_of_mem _ hx)]
    exact sumFs_applyEntry L hnd m e (h e (by simp)).1 (h e (by simp)).2

theorem sumFs_foldOpenings (obs : List OpeningBalance) (accounts : List Account)
    (L : List String) (hnd : L.Nodup) (hndacc : (accounts.map Account.id).Nodup)
    (m : String → Int)
    (h : ∀ ob ∈ obs, ob.accountId ∈ L ∧
      ∃ a ∈ accounts, a.id = ob.accountId ∧ isBSType a.type = true) :
    sumIds L (obs.foldl (fsApplyOpening accounts) m) =
      sumIds L m + (obs.map OpeningBalance.amount).sum := by
  induction obs generalizing m with
  | nil => simp
  | cons ob obs ih =>
    rw [List.foldl_cons, ih _ fun x hx => h x (List.mem_cons_of_mem _ hx),
      sumFs_applyOpening accounts L hnd hndacc m ob (h ob (by simp)).1 (h ob (by simp)).2]
    simp
    ring

/-- Raw-balance sum of the master accounts of one type. -/
def rawSumByType (accounts : List Account) (m : String → Int) (t : AccountType) : Int :=
  ((accounts.filter fun a => a.type == t).map fun a => m a.id).sum

theorem rawSum_partition (accounts : List Account) (m : String → Int) :
    sumIds (accounts.map Account.id) m =
      rawSumByType accounts m .asset + rawSumByType accounts m .liability
      + rawSumByType accounts m .equity + rawSumByType accounts m .revenue
      + rawSumByType accounts m .expense := by
  induction accounts with
  | nil => rfl
  | cons a as ih =>
    have : sumIds ((a :: as).map Account.id) m = m a.id + sumIds (as.map Account.id) m := by
      simp [sumIds]
    rw [this, ih]
    cases htype : a.type <;>
      simp [rawSumByType, List.filter_cons, htype] <;> ring

/-- The display-balance sum of the statement rows of one type equals the
signed raw-balance sum of the master accounts of that type. -/
theorem sum_fsRows (accounts : List Account) (m : String → Int) (t : AccountType) :
    (((accounts.filterMap (fsRowOf m)).filter fun r => r.type == t).map (·.balance)).sum
    = if isDebitNormal t then rawSumByType accounts m t else -rawSumByType accounts m t := by
  induction accounts with
  | nil => cases h : isDebitNormal t <;> simp [rawSumByType, h]
  | cons a as ih =>
    by_cases hz : m a.id = 0
    · rw [List.filterMap_cons_none (show fsRowOf m a = none by simp [fsRowOf, hz])]
      rw [ih]
      by_cases hat : a.type = t
      · cases h : isDebitNormal t <;>
          simp [rawSumByType, List.filter_cons, hat, hz, h]
      · cases h : isDebitNormal t <;>
          simp [rawSumByType, List.filter_cons, hat, hz, h]
    · rw [List.filterMap_cons_some (show fsRowOf m a = some ⟨a.id, a.code, a.name,
        a.type, if isDebitNormal a.type then m a.id else -(m a.id)⟩ by simp [fsRowOf, hz])]
      by_cases hat : a.type = t
      · have hrt : ((⟨a.id, a.code, a.name, a.type,
            if isDebitNormal a.type then m a.id else -(m a.id)⟩ : AccountBalance).type == t)
            = true := by simp [hat]
        rw [List.filter_cons, if_pos hrt, List.map_cons, List.sum_cons, ih]
        cases h : isDebitNormal t <;>
          simp [rawSumByType, List.filter_cons, hat, h] <;> ring
      · have hrt : ¬ (((⟨a.id, a.code, a.name, a.type,
            if isDebitNormal a.type then m a.id else -(m a.id)⟩ : AccountBalance).type == t)
            = true) := by simp [hat]
        rw [List.filter_cons, if_neg hrt, ih]
        cases h : isDebitNormal t <;>
          simp [rawSumByType, List.filter_cons, hat, h]

/-- The sum over sorted statement rows filtered by type, expressed on the
unsorted filterMap. -/
theorem sumBal_filter_sorted (l : List AccountBalance) (t : AccountType) :
    sumBal ((l.insertionSort abLe).filter fun a => a.type == t)
      = ((l.filter fun a => a.type == t).map (·.balance)).sum := by
  rw [sumBal_eq]
  exact (((List.perm_insertionSort abLe l).filter fun a => a.type == t).map
    (·.balance)).sum_eq

/-- Shared lemma: the closure sum of the raw-balance map over the master is
zero under the coverage hypotheses. -/
theorem fsClosureAux (accounts : List Account) (entries : List JournalEntry)
    (openings : List OpeningBalance) (flag : Bool) (sd ed : Option String)
    (hnd : (accounts.map Account.id).Nodup)
    (hentries : ∀ e ∈ filterByDate entries sd ed,
      e.debitAccountId ∈ accounts.map Account.id
      ∧ e.creditAccountId ∈ accounts.map Account.id)
    (hob : flag = true → ∀ ob ∈ openings,
      ∃ a ∈ accounts, a.id = ob.accountId ∧ isBSType a.type = true)
    (hsum : flag = true → (openings.map OpeningBalance.amount).sum = 0) :
    sumIds (accounts.map Account.id)
      (fsBalances accounts (filterByDate entries sd ed) openings flag) = 0 := by
  rw [fsBalances]
  rw [sumFs_foldEntries _ _ hnd _ hentries]
  have hcov : ∀ ob ∈ (if flag then openings else []), ob.accountId ∈ accounts.map Account.id
      ∧ ∃ a ∈ accounts, a.id = ob.accountId ∧ isBSType a.type = true := by
    cases flag with
    | false => simp
    | true =>
      simp only [if_pos rfl]
      intro ob hob'
      rcases hob rfl ob hob' with ⟨a, ha, haid, haBS⟩
      exact ⟨List.mem_map.mpr ⟨a, ha, haid⟩, a, ha, haid, haBS⟩
  rw [sumFs_foldOpenings _ accounts _ hnd hnd _ hcov, sumIds_zero]
  cases flag with
  | false => simp
  | true => simpa using hsum rfl

/-- C4 (amended): the balance sheet lists display balances of exactly the
accounts with nonzero raw balance, its equity subtotal is Σ equity display
balances + current-period netIncome, and for every input whose date-filtered
entries reference only master accounts and whose opening balances sum to
zero and each name an existing balance-sheet account (with distinct master
ids), totalAssets == totalLiabilities + equitySubtotal. -/
theorem balanceSheet_balanced (accounts : List Account) (entries : List JournalEntry)
    (openings : List OpeningBalance) (flag : Bool) (sd ed : Option String)
    (hnd : (accounts.map Account.id).Nodup)
    (hentries : ∀ e ∈ filterByDate entries sd ed,
      e.debitAccountId ∈ accounts.map Account.id
      ∧ e.creditAccountId ∈ accounts.map Account.id)
    (hob : flag = true → ∀ ob ∈ openings,
      ∃ a ∈ accounts, a.id = ob.accountId ∧ isBSType a.type = true)
    (hsum : flag = true → (openings.map OpeningBalance.amount).sum = 0) :
    (bsData (accountBalances accounts entries openings flag sd ed)).totalAssets
      = (bsData (accountBalances accounts entries openings flag sd ed)).totalLiabilities
        + (bsData (accountBalances accounts entries openings flag sd ed)).totalEquity
    ∧ (bsData (accountBalances accounts entries openings flag sd ed)).totalEquity
        = sumBal (bsData (accountBalances accounts entries openings flag sd ed)).equity
          + (plData (accountBalances accounts entries openings flag sd ed)).netIncome
    ∧ (∀ r ∈ accountBalances accounts entries openings flag sd ed,
        ∃ a ∈ accounts, r.id = a.id ∧ r.type = a.type
          ∧ fsBalances accounts (filterByDate entries sd ed) openings flag a.id ≠ 0
          ∧ r.balance = (if isDebitNormal a.type then
              fsBalances accounts (filterByDate entries sd ed) openings flag a.id
            else -(fsBalances accounts (filterByDate entries sd ed) openings flag a.id)))
    ∧ (∀ a ∈ accounts,
        fsBalances accounts (filterByDate entries sd ed) openings flag a.id ≠ 0 →
        ∃ r ∈ accountBalances accounts entries openings flag sd ed, r.id = a.id) := by
  have hS := fsClosureAux accounts entries openings flag sd ed hnd hentries hob hsum
  rw [rawSum_partition] at hS
  refine ⟨?_, rfl, ?_, ?_⟩
  · have hA : (bsData (accountBalances accounts entries openings flag sd ed)).totalAssets
        = rawSumByType accounts
            (fsBalances accounts (filterByDate entries sd ed) openings flag) .asset := by
      show sumBal _ = _
      rw [accountBalances, sumBal_filter_sorted, sum_fsRows]
      rfl
    have hL : (bsData (accountBalances accounts entries openings flag sd ed)).totalLiabilities
        = -rawSumByType accounts
            (fsBalances accounts (filterByDate entries sd ed) openings flag) .liability := by
      show sumBal _ = _
      rw [accountBalances, sumBal_filter_sorted, sum_fsRows]
      rfl
    have hE : sumBal ((accountBalances accounts entries openings flag sd ed).filter
          fun a => a.type == .equity)
        = -rawSumByType accounts
            (fsBalances accounts (filterByDate entries sd ed) openings flag) .equity := by
      rw [accountBalances, sumBal_filter_sorted, sum_fsRows]
      rfl
    have hR : sumBal ((accountBalances accounts entries openings flag sd ed).filter
          fun a => a.type == .revenue)
        = -rawSumByType accounts
            (fsBalances accounts (filterByDate entries sd ed) openings flag) .revenue := by
      rw [accountBalances, sumBal_filter_sorted, sum_fsRows]
      rfl
    have hX : sumBal ((accountBalances accounts entries openings flag sd ed).filter
          fun a => a.type == .expense)
        = rawSumByType accounts
            (fsBalances accounts (filterByDate entries sd ed) openings flag) .expense := by
      rw [accountBalances, sumBal_filter_sorted, sum_fsRows]
      rfl
    have hTE : (bsData (accountBalances accounts entries openings flag sd ed)).totalEquity
        = sumBal ((accountBalances accounts entries openings flag sd ed).filter
            fun a => a.type == .equity)
          + (sumBal ((accountBalances accounts entries openings flag sd ed).filter
              fun a => a.type == .revenue)
            - sumBal ((accountBalances accounts entries openings flag sd ed).filter
              fun a => a.type == .expense)) :=
      rfl
    rw [hA, hL, hTE, hE, hR, hX]
    linarith [hS]
  · intro r hr
    rw [accountBalances] at hr
    have hr' : r ∈ accounts.filterMap
        (fsRowOf (fsBalances accounts (filterByDate entries sd ed) openings flag)) :=
      (List.perm_insertionSort abLe _).mem_iff.mp hr
    rcases List.mem_filterMap.mp hr' with ⟨a, ha, hrow⟩
    rw [fsRowOf] at hrow
    by_cases hz : fsBalances accounts (filterByDate entries sd ed) openings flag a.id = 0
    · rw [if_pos hz] at hrow
      cases hrow
    · rw [if_neg hz] at hrow
      cases hrow
      exact ⟨a, ha, rfl, rfl, hz, rfl⟩
  · intro a ha hz
    refine ⟨⟨a.id, a.code, a.name, a.type,
      if isDebitNormal a.type then
        fsBalances accounts (filterByDate entries sd ed) openings flag a.id
      else -(fsBalances accounts (filterByDate entries sd ed) openings flag a.id)⟩,
      ?_, rfl⟩
    rw [accountBalances]
    refine (List.perm_insertionSort abLe _).mem_iff.mpr ?_
    refine List.mem_filterMap.mpr ⟨a, ha, ?_⟩
    rw [fsRowOf, if_neg hz]

/-- C4 witness: scenario B — opening Cash +500 / Capital −500, one entry
debit Expense 200 / credit Cash 200; assets 300 = liabilities 0 + equity
(500 + netIncome −200). -/
theorem balanceSheet_balanced_witness :
    (bsData (accountBalances
        [⟨"cash", "101", "現金", .asset⟩, ⟨"cap", "301", "資本金", .equity⟩,
         ⟨"exp", "501", "消耗品費", .expense⟩]
        [⟨"2024-05-01", "買い物", "exp", "cash", 200⟩]
        [⟨"cash", 500⟩, ⟨"cap", -500⟩] true none none)).totalAssets
      = (bsData (accountBalances
        [⟨"cash", "101", "現金", .asset⟩, ⟨"cap", "301", "資本金", .equity⟩,
         ⟨"exp", "501", "消耗品費", .expense⟩]
        [⟨"2024-05-01", "買い物", "exp", "cash", 200⟩]
        [⟨"cash", 500⟩, ⟨"cap", -500⟩] true none none)).totalLiabilities
        + (bsData (accountBalances
        [⟨"cash", "101", "現金", .asset⟩, ⟨"cap", "301", "資本金", .equity⟩,
         ⟨"exp", "501", "消耗品費", .expense⟩]
        [⟨"2024-05-01", "買い物", "exp", "cash", 200⟩]
        [⟨"cash", 500⟩, ⟨"cap", -500⟩] true none none)).totalEquity
    ∧ (bsData (accountBalances
        [⟨"cash", "101", "現金", .asset⟩, ⟨"cap", "301", "資本金", .equity⟩,
         ⟨"exp", "501", "消耗品費", .expense⟩]
        [⟨"2024-05-01", "買い物", "exp", "cash", 200⟩]
        [⟨"cash", 500⟩, ⟨"cap", -500⟩] true none none)).totalAssets = 300 :=
  ⟨(balanceSheet_balanced
      [⟨"cash", "101", "現金", .asset⟩, ⟨"cap", "301", "資本金", .equity⟩,
       ⟨"exp", "501", "消耗品費", .expense⟩]
      [⟨"2024-05-01", "買い物", "exp", "cash", 200⟩]
      [⟨"cash", 500⟩, ⟨"cap", -500⟩] true none none
      (by decide) (by decide)
      (fun _ => by decide) (fun _ => by decide)).1,
   by decide⟩

/-- C4 counterexample: an entry referencing the unknown debit id "ghost"
against Cash satisfies double-entry closure of the full ledger (openings are
empty), yet the balance sheet drops the unknown id's row: totalAssets = −100
while totalLiabilities + equitySubtotal = 0, so the claim as stated — balance
for every closure-satisfying input — is false. -/
theorem balanceSheet_balanced_cex :
    (bsData (accountBalances [⟨"cash", "101", "現金", .asset⟩]
        [⟨"2024-05-01", "x", "ghost", "cash", 100⟩] [] true none none)).totalAssets = -100
    ∧ (bsData (accountBalances [⟨"cash", "101", "現金", .asset⟩]
        [⟨"2024-05-01", "x", "ghost", "cash", 100⟩] [] true none none)).totalLiabilities
      + (bsData (accountBalances [⟨"cash", "101", "現金", .asset⟩]
        [⟨"2024-05-01", "x", "ghost", "cash", 100⟩] [] true none none)).totalEquity = 0
    ∧ ¬ ((bsData (accountBalances [⟨"cash", "101", "現金", .asset⟩]
        [⟨"2024-05-01", "x", "ghost", "cash", 100⟩] [] true none none)).totalAssets
      = (bsData (accountBalances [⟨"cash", "101", "現金", .asset⟩]
        [⟨"2024-05-01", "x", "ghost", "cash", 100⟩] [] true none none)).totalLiabilities
      + (bsData (accountBalances [⟨"cash", "101", "現金", .asset⟩]
        [⟨"2024-05-01", "x", "ghost", "cash", 100⟩] [] true none none)).totalEquity) := by
  refine ⟨by decide, by decide, by decide⟩

/-! ### Cash flow statement (`src/utils/cashFlow.ts`) -/

/-- `getAccountType`: type of the account with a given id, if any. -/
def getAccountType (accounts : List Account) (id : String) : Option AccountType :=
  (accounts.find? fun a => a.id == id).map Account.type

/-- `getAccountName`: name of the account with a given id, or the empty
string. -/
def getAccountName (accounts : List Account) (id : String) : String :=
  match accounts.find? fun a => a.id == id with
  | some a => a.name
  | none => ""

/-- Cash or deposit account, by name. -/
def isCashAccount (accounts : List Account) (id : String) : Bool :=
  let name := getAccountName accounts id
  name == "現金" || strIncludes name "預金" || name == "小口現金"

/-- Receivable account, by name (same matcher in `cashFlow.ts` and
`financialIndicators.ts`). -/
def isReceivable (accounts : List Account) (id : String) : Bool :=
  let name := getAccountName accounts id
  name == "売掛金" || name == "受取手形"

/-- Inventory account, by name. -/
def isInventory (accounts : List Account) (id : String) : Bool :=
  let name := getAccountName accounts id
  name == "商品" || name == "製品" || name == "原材料" || name == "仕掛品"

/-- Payable account, by name. -/
def isPayable (accounts : List Account) (id : String) : Bool :=
  let name := getAccountName accounts id
  name == "買掛金" || name == "支払手形"

/-- Fixed-asset account, by name. -/
def isFixedAsset (accounts : List Account) (id : String) : Bool :=
  let name := getAccountName accounts id
  ["備品", "車両", "建物", "土地", "機械", "ソフトウェア", "工具器具備品"].any
    fun n => strIncludes name n

/-- Borrowing account, by name. -/
def isBorrowing (accounts : List Account) (id : String) : Bool :=
  strIncludes (getAccountName accounts id) "借入金"

/-- Depreciation account, by name. -/
def isDepreciationName (accounts : List Account) (id : String) : Bool :=
  strIncludes (getAccountName accounts id) "減価償却"

/-- Capital account, by name. -/
def isCapital (accounts : List Account) (id : String) : Bool :=
  getAccountName accounts id == "資本金"

/-- Other current asset, by type and name with exclusions. -/
def isOtherCurrentAsset (accounts : List Account) (id : String) : Bool :=
  let name := getAccountName accounts id
  if getAccountType accounts id != some .asset then false
  else if isCashAccount accounts id then false
  else if isReceivable accounts id then false
  else if isInventory accounts id then false
  else if isFixedAsset accounts id then false
  else ["前払", "仮払", "未収", "立替", "短期貸付"].any fun n => strIncludes name n

/-- Other current liability, by type and name with exclusions. -/
def isOtherCurrentLiability (accounts : List Account) (id : String) : Bool :=
  let name := getAccountName accounts id
  if getAccountType accounts id != some .liability then false
  else if isPayable accounts id then false
  else if isBorrowing accounts id then false
  else ["未払", "前受", "仮受", "預り", "賞与引当"].any fun n => strIncludes name n

/-- Operating section of the cash-flow statement. -/
structure OperatingCF where
  netProfit : Int
  depreciation : Int
  accountsReceivableChange : Int
  inventoryChange : Int
  accountsPayableChange : Int
  otherCurrentAssetChange : Int
  otherCurrentLiabilityChange : Int
  subtotal : Int
deriving DecidableEq, Repr

/-- Investing section of the cash-flow statement. -/
structure InvestingCF where
  fixedAssetPurchase : Int
  fixedAssetSale : Int
  otherInvesting : Int
  subtotal : Int
deriving DecidableEq, Repr

/-- Financing section of the cash-flow statement. -/
structure FinancingCF where
  borrowing : Int
  repayment : Int
  capitalIncrease : Int
  dividends : Int
  otherFinancing : Int
  subtotal : Int
deriving DecidableEq, Repr

/-- The cash-flow statement record of `cashFlow.ts`. -/
structure CashFlowStatement where
  operating : OperatingCF
  investing : InvestingCF
  financing : FinancingCF
  totalCashFlow : Int
  beginningCash : Int
  endingCash : Int
deriving DecidableEq, Repr

/-- The beginning-balance map: opening balances only (`Map.set`, overwrite
semantics). -/
def cfBeginning (openings : List OpeningBalance) : String → Int :=
  openings.foldl (fun m ob => setFn m ob.accountId ob.amount) fun _ => 0

/-- One entry's effect on the ending-balance map: only balance-sheet types
move, debit side first. -/
def cfEndApplyEntry (accounts : List Account) (m : String → Int)
    (e : JournalEntry) : String → Int :=
  let m1 :=
    match getAccountType accounts e.debitAccountId with
    | some .asset => setFn m e.debitAccountId (m e.debitAccountId + e.amount)
    | some .liability => setFn m e.debitAccountId (m e.debitAccountId - e.amount)
    | some .equity => setFn m e.debitAccountId (m e.debitAccountId - e.amount)
    | _ => m
  match getAccountType accounts e.creditAccountId with
  | some .asset => setFn m1 e.creditAccountId (m1 e.creditAccountId - e.amount)
  | some .liability => setFn m1 e.creditAccountId (m1 e.creditAccountId + e.amount)
  | some .equity => setFn m1 e.creditAccountId (m1 e.creditAccountId + e.amount)
  | _ => m1

/-- The ending-balance map. -/
def cfEnding (accounts : List Account) (entries : List JournalEntry)
    (openings : List OpeningBalance) : String → Int :=
  entries.foldl (cfEndApplyEntry accounts) (cfBeginning openings)

/-- Revenue total: entries crediting a revenue account. -/
def cfRevenue (accounts : List Account) (entries : List JournalEntry) : Int :=
  ((entries.filter fun e =>
    getAccountType accounts e.creditAccountId == some .revenue).map
      JournalEntry.amount).sum

/-- Expense total: entries debiting an expense account. -/
def cfExpenses (accounts : List Account) (entries : List JournalEntry) : Int :=
  ((entries.filter fun e =>
    getAccountType accounts e.debitAccountId == some .expense).map
      JournalEntry.amount).sum

/-- Depreciation total: entries debiting an account named 減価償却•. -/
def cfDepreciation (accounts : List Account) (entries : List JournalEntry) : Int :=
  ((entries.filter fun e => isDepreciationName accounts e.debitAccountId).map
    JournalEntry.amount).sum

/-- Accumulators of the per-account classification loop of
`calculateCashFlow`. -/
structure CFAgg where
  receivableChange : Int
  inventoryChange : Int
  payableChange : Int
  fixedAssetChange : Int
  borrowingChange : Int
  capitalChange : Int
  otherCurrentAssetChange : Int
  otherCurrentLiabilityChange : Int
  beginningCash : Int
  endingCash : Int
deriving DecidableEq, Repr

/-- One step of the per-account classification loop. -/
def cfAggStep (accounts : List Account) (beginningB endingB : String → Int)
    (s : CFAgg) (a : Account) : CFAgg :=
  let beginning := beginningB a.id
  let ending := endingB a.id
  let change := ending - beginning
  if isCashAccount accounts a.id then
    { s with beginningCash := s.beginningCash + beginning,
             endingCash := s.endingCash + ending }
  else if isReceivable accounts a.id then
    { s with receivableChange := s.receivableChange + change }
  else if isInventory accounts a.id then
    { s with inventoryChange := s.inventoryChange + change }
  else if isPayable accounts a.id then
    { s with payableChange := s.payableChange - change }
  else if isFixedAsset accounts a.id then
    { s with fixedAssetChange := s.fixedAssetChange + change }
  else if isBorrowing accounts a.id then
    { s with borrowingChange := s.borrowingChange - change }
  else if isCapital accounts a.id then
    { s with capitalChange := s.capitalChange - change }
  else if isOtherCurrentAsset accounts a.id then
    { s with otherCurrentAssetChange := s.otherCurrentAssetChange + change }
  else if isOtherCurrentLiability accounts a.id then
    { s with otherCurrentLiabilityChange := s.otherCurrentLiabilityChange - change }
  else s

/-- The per-account classification loop. -/
def cfAgg (accounts : List Account) (beginningB endingB : String → Int) : CFAgg :=
  accounts.foldl (cfAggStep accounts beginningB endingB) ⟨0, 0, 0, 0, 0, 0, 0, 0, 0, 0⟩

/-- `calculateCashFlow` of `src/utils/cashFlow.ts` (indirect method). -/
def calculateCashFlow (entries : List JournalEntry) (accounts : List Account)
    (openings : List OpeningBalance) : CashFlowStatement :=
  let beginningB := cfBeginning openings
  let endingB := cfEnding accounts entries openings
  let netProfit := cfRevenue accounts entries - cfExpenses accounts entries
  let depreciation := cfDepreciation accounts entries
  let agg := cfAgg accounts beginningB endingB
  let actualCashChange := agg.endingCash - agg.beginningCash
  let accountsReceivableChange := -agg.receivableChange
  let inventoryChangeCF := -agg.inventoryChange
  let accountsPayableChange := agg.payableChange
  let otherCurrentAssetChangeCF := -agg.otherCurrentAssetChange
  let otherCurrentLiabilityChangeCF := agg.otherCurrentLiabilityChange
  let fixedAssetPurchase := if 0 < agg.fixedAssetChange then -agg.fixedAssetChange else 0
  let fixedAssetSale := if agg.fixedAssetChange < 0 then -agg.fixedAssetChange else 0
  let investingSubtotal := fixedAssetPurchase + fixedAssetSale
  let borrowing := if 0 < agg.borrowingChange then agg.borrowingChange else 0
  let repayment := if agg.borrowingChange < 0 then agg.borrowingChange else 0
  let capitalIncrease := if 0 < agg.capitalChange then agg.capitalChange else 0
  let financingSubtotal := borrowing + repayment + capitalIncrease
  let operatingSubtotal := actualCashChange - investingSubtotal - financingSubtotal
  let calculatedOperating := netProfit + depreciation + accountsReceivableChange
    + inventoryChangeCF + accountsPayableChange + otherCurrentAssetChangeCF
    + otherCurrentLiabilityChangeCF
  let operatingAdjustment := operatingSubtotal - calculatedOperating
  ⟨⟨netProfit, depreciation, accountsReceivableChange, inventoryChangeCF,
    accountsPayableChange, otherCurrentAssetChangeCF,
    otherCurrentLiabilityChangeCF + operatingAdjustment, operatingSubtotal⟩,
   ⟨fixedAssetPurchase, fixedAssetSale, 0, investingSubtotal⟩,
   ⟨borrowing, repayment, capitalIncrease, 0, 0, financingSubtotal⟩,
   actualCashChange, agg.beginningCash, agg.endingCash⟩

/-- C2: for every entry list, account list and opening-balance set, the
statement returned by `calculateCashFlow` satisfies
totalCashFlow == endingCash − beginningCash
== operating.subtotal + investing.subtotal + financing.subtotal (the
operating subtotal being the residual actualCashChange − investing −
financing), and the reported operating line items — netProfit, depreciation,
receivable/inventory/payable deltas, other-current-asset delta, and the
other-current-liability change that absorbs the residual gap — sum exactly
to operating.subtotal. -/
theorem calculateCashFlow_spec (entries : List JournalEntry)
    (accounts : List Account) (openings : List OpeningBalance) :
    (calculateCashFlow entries accounts openings).totalCashFlow
      = (calculateCashFlow entries accounts openings).endingCash
        - (calculateCashFlow entries accounts openings).beginningCash
    ∧ (calculateCashFlow entries accounts openings).totalCashFlow
      = (calculateCashFlow entries accounts openings).operating.subtotal
        + (calculateCashFlow entries accounts openings).investing.subtotal
        + (calculateCashFlow entries accounts openings).financing.subtotal
    ∧ (calculateCashFlow entries accounts openings).operating.netProfit
      + (calculateCashFlow entries accounts openings).operating.depreciation
      + (calculateCashFlow entries accounts openings).operating.accountsReceivableChange
      + (calculateCashFlow entries accounts openings).operating.inventoryChange
      + (calculateCashFlow entries accounts openings).operating.accountsPayableChange
      + (calculateCashFlow entries accounts openings).operating.otherCurrentAssetChange
      + (calculateCashFlow entries accounts openings).operating.otherCurrentLiabilityChange
      = (calculateCashFlow entries accounts openings).operating.subtotal := by
  refine ⟨?_, ?_, ?_⟩ <;> simp only [calculateCashFlow] <;> ring

/-! ### Year-end closing (`src/utils/yearEndClosing.ts`) -/

/-- `isBalanceSheetAccount` of `yearEndClosing.ts`. -/
def isBalanceSheetAccount (t : AccountType) : Bool :=
  match t with
  | .asset => true
  | .liability => true
  | .equity => true
  | _ => false

/-- `findRetainedEarningsAccount`: first account named 繰越利益剰余金,
利益剰余金 or 繰越利益. -/
def findRetainedEarningsAccount (accounts : List Account) : Option Account :=
  accounts.find? fun a =>
    a.name == "繰越利益剰余金" || a.name == "利益剰余金" || a.name == "繰越利益"

/-- The fiscal-window filter of `calculateYearEndClosing`
(`entry.date >= fiscalYearStart && entry.date <= fiscalYearEnd`). -/
def yecPeriodEntries (entries : List JournalEntry) (fiscalYearStart fiscalYearEnd : String) :
    List JournalEntry :=
  entries.filter fun e =>
    !(strLt e.date fiscalYearStart) && !(strLt fiscalYearEnd e.date)

/-- State of the aggregation loop of `calculateYearEndClosing`. -/
structure YecState where
  totalRevenue : Int
  totalExpense : Int
  balances : String → Int

/-- One entry of the aggregation loop: revenue/expense totals with
cancellation sides, then balance-sheet balance updates (debit side first). -/
def yecStep (accounts : List Account) (s : YecState) (e : JournalEntry) : YecState :=
  let dt := getAccountType accounts e.debitAccountId
  let ct := getAccountType accounts e.creditAccountId
  let rev1 := if ct == some .revenue then s.totalRevenue + e.amount else s.totalRevenue
  let rev2 := if dt == some .revenue then rev1 - e.amount else rev1
  let exp1 := if dt == some .expense then s.totalExpense + e.amount else s.totalExpense
  let exp2 := if ct == some .expense then exp1 - e.amount else exp1
  let b1 :=
    match dt with
    | some .asset => setFn s.balances e.debitAccountId (s.balances e.debitAccountId + e.amount)
    | some .liability => setFn s.balances e.debitAccountId (s.balances e.debitAccountId - e.amount)
    | some .equity => setFn s.balances e.debitAccountId (s.balances e.debitAccountId - e.amount)
    | _ => s.balances
  let b2 :=
    match ct with
    | some .asset => setFn b1 e.creditAccountId (b1 e.creditAccountId - e.amount)
    | some .liability => setFn b1 e.creditAccountId (b1 e.creditAccountId + e.amount)
    | some .equity => setFn b1 e.creditAccountId (b1 e.creditAccountId + e.amount)
    | _ => b1
  ⟨rev2, exp2, b2⟩

/-- Opening balances as the initial balance map (`Map.set`, overwrite). -/
def yecInit (openings : List OpeningBalance) : String → Int :=
  openings.foldl (fun m ob => setFn m ob.accountId ob.amount) fun _ => 0

/-- The aggregation loop over the period entries. -/
def yecRun (accounts : List Account) (pe : List JournalEntry)
    (openings : List OpeningBalance) : YecState :=
  pe.foldl (yecStep accounts) ⟨0, 0, yecInit openings⟩

/-- Balance map before the retained-earnings adjustment. -/
def yecPreBalances (entries : List JournalEntry) (accounts : List Account)
    (openings : List OpeningBalance) (ys ye : String) : String → Int :=
  (yecRun accounts (yecPeriodEntries entries ys ye) openings).balances

/-- Net profit of the fiscal window. -/
def yecNetProfit (entries : List JournalEntry) (accounts : List Account)
    (openings : List OpeningBalance) (ys ye : String) : Int :=
  (yecRun accounts (yecPeriodEntries entries ys ye) openings).totalRevenue
    - (yecRun accounts (yecPeriodEntries entries ys ye) openings).totalExpense

/-- Balance map after the retained-earnings adjustment (applied only when the
account exists and the net profit is nonzero, as in the source). -/
def yecFinalBalances (entries : List JournalEntry) (accounts : List Account)
    (openings : List OpeningBalance) (ys ye : String) : String → Int :=
  let pre := yecPreBalances entries accounts openings ys ye
  let netProfit := yecNetProfit entries accounts openings ys ye
  match findRetainedEarningsAccount accounts with
  | some re =>
    if netProfit ≠ 0 then setFn pre re.id (pre re.id - netProfit) else pre
  | none => pre

/-- One line of `closingBalances`. -/
structure ClosingBalanceItem where
  accountId : String
  accountName : String
  accountType : AccountType
  balance : Int
deriving DecidableEq, Repr

/-- The transfer entry posted to retained earnings. -/
structure ClosingEntry where
  debitAccountId : String
  creditAccountId : String
  amount : Int
  description : String
deriving DecidableEq, Repr

/-- The result record of `calculateYearEndClosing`. -/
structure YearEndClosingResult where
  closingBalances : List ClosingBalanceItem
  netProfit : Int
  closingEntry : Option ClosingEntry
  carryForwardBalances : List OpeningBalance
deriving Repr

/-- The `closingBalances` list: nonzero balance-sheet accounts with their
(raw) final balance. -/
def yecClosingFrom (accounts : List Account) (finalB : String → Int) :
    List ClosingBalanceItem :=
  accounts.filterMap fun a =>
    if isBalanceSheetAccount a.type then
      if finalB a.id = 0 then none
      else some ⟨a.id, a.name, a.type, finalB a.id⟩
    else none

/-- The `carryForwardBalances` list: same accounts and amounts in
`OpeningBalance` format. -/
def yecCarryFrom (accounts : List Account) (finalB : String → Int) :
    List OpeningBalance :=
  accounts.filterMap fun a =>
    if isBalanceSheetAccount a.type then
      if finalB a.id = 0 then none
      else some ⟨a.id, finalB a.id⟩
    else none

/-- `calculateYearEndClosing` of `src/utils/yearEndClosing.ts`. -/
def calculateYearEndClosing (entries : List JournalEntry) (accounts : List Account)
    (openings : List OpeningBalance) (fiscalYearStart fiscalYearEnd : String) :
    YearEndClosingResult :=
  let netProfit := yecNetProfit entries accounts openings fiscalYearStart fiscalYearEnd
  let closingEntry : Option ClosingEntry :=
    match findRetainedEarningsAccount accounts with
    | some re =>
      if netProfit = 0 then none
      else if 0 < netProfit then
        some ⟨"", re.id, netProfit, "当期純利益の振替（" ++ fiscalYearEnd ++ "）"⟩
      else
        some ⟨re.id, "", |netProfit|, "当期純損失の振替（" ++ fiscalYearEnd ++ "）"⟩
    | none => none
  let finalB := yecFinalBalances entries accounts openings fiscalYearStart fiscalYearEnd
  ⟨yecClosingFrom accounts finalB, netProfit, closingEntry, yecCarryFrom accounts finalB⟩

/-- Signed revenue total of the claim: credits to revenue accounts add,
debits to revenue accounts subtract. -/
def revenueSpec (accounts : List Account) (pe : List JournalEntry) : Int :=
  ((pe.filter fun e => getAccountType accounts e.creditAccountId == some .revenue).map
    JournalEntry.amount).sum
  - ((pe.filter fun e => getAccountType accounts e.debitAccountId == some .revenue).map
    JournalEntry.amount).sum

/-- Signed expense total of the claim: debits to expense accounts add,
credits to expense accounts subtract. -/
def expenseSpec (accounts : List Account) (pe : List JournalEntry) : Int :=
  ((pe.filter fun e => getAccountType accounts e.debitAccountId == some .expense).map
    JournalEntry.amount).sum
  - ((pe.filter fun e => getAccountType accounts e.creditAccountId == some .expense).map
    JournalEntry.amount).sum

theorem yecRun_totalRevenue (accounts : List Account) (pe : List JournalEntry) :
    ∀ s : YecState, (pe.foldl (yecStep accounts) s).totalRevenue
      = s.totalRevenue + revenueSpec accounts pe := by
  induction pe with
  | nil => intro s; simp [revenueSpec]
  | cons e es ih =>
    intro s
    rw [List.foldl_cons, ih]
    by_cases hc : getAccountType accounts e.creditAccountId = some .revenue <;>
      by_cases hd : getAccountType accounts e.debitAccountId = some .revenue <;>
        simp [yecStep, revenueSpec, List.filter_cons, hc, hd] <;> ring

theorem yecRun_totalExpense (accounts : List Account) (pe : List JournalEntry) :
    ∀ s : YecState, (pe.foldl (yecStep accounts) s).totalExpense
      = s.totalExpense + expenseSpec accounts pe := by
  induction pe with
  | nil => intro s; simp [expenseSpec]
  | cons e es ih =>
    intro s
    rw [List.foldl_cons, ih]
    by_cases hc : getAccountType accounts e.creditAccountId = some .expense <;>
      by_cases hd : getAccountType accounts e.debitAccountId = some .expense <;>
        simp [yecStep, expenseSpec, List.filter_cons, hc, hd] <;> ring

/-- C5: for every input, `calculateYearEndClosing` computes netProfit =
revenue total − expense total over the fiscal window (debits to revenue
subtract; credits to expense subtract); it locates the retained-earnings
account by name in {繰越利益剰余金, 利益剰余金, 繰越利益}, and when one
exists the final balance of that account is its pre-closing raw balance
minus netProfit, while when none exists the closing still completes: the
closing entry is `none` and the closing/carry-forward balances are computed
from the unadjusted balance map. -/
theorem calculateYearEndClosing_spec (entries : List JournalEntry)
    (accounts : List Account) (openings : List OpeningBalance) (ys ye : String) :
    (calculateYearEndClosing entries accounts openings ys ye).netProfit
      = revenueSpec accounts (yecPeriodEntries entries ys ye)
        - expenseSpec accounts (yecPeriodEntries entries ys ye)
    ∧ (∀ re, findRetainedEarningsAccount accounts = some re →
        (re.name = "繰越利益剰余金" ∨ re.name = "利益剰余金" ∨ re.name = "繰越利益")
        ∧ yecFinalBalances entries accounts openings ys ye re.id
          = yecPreBalances entries accounts openings ys ye re.id
            - (calculateYearEndClosing entries accounts openings ys ye).netProfit)
    ∧ (findRetainedEarningsAccount accounts = none →
        (calculateYearEndClosing entries accounts openings ys ye).closingEntry = none
        ∧ (calculateYearEndClosing entries accounts openings ys ye).closingBalances
          = yecClosingFrom accounts (yecPreBalances entries accounts openings ys ye)
        ∧ (calculateYearEndClosing entries accounts openings ys ye).carryForwardBalances
          = yecCarryFrom accounts (yecPreBalances entries accounts openings ys ye)) := by
  refine ⟨?_, ?_, ?_⟩
  · show yecNetProfit entries accounts openings ys ye = _
    rw [yecNetProfit, yecRun, yecRun_totalRevenue, yecRun_totalExpense]
    show (0 : Int) + _ - ((0 : Int) + _) = _
    ring
  · intro re hre
    have hname : re.name = "繰越利益剰余金" ∨ re.name = "利益剰余金" ∨ re.name = "繰越利益" := by
      have := List.find?_some hre
      simpa [or_assoc] using this
    refine ⟨hname, ?_⟩
    show yecFinalBalances entries accounts openings ys ye re.id
      = yecPreBalances entries accounts openings ys ye re.id
        - yecNetProfit entries accounts openings ys ye
    rw [yecFinalBalances, hre]
    by_cases hz : yecNetProfit entries accounts openings ys ye = 0
    · simp [hz]
    · simp only [if_pos hz, setFn, if_pos rfl]
      simp [hz]
  · intro hre
    refine ⟨?_, ?_, ?_⟩
    · show (match findRetainedEarningsAccount accounts with
        | some re =>
          if yecNetProfit entries accounts openings ys ye = 0 then none
          else if 0 < yecNetProfit entries accounts openings ys ye then
            some (⟨"", re.id, yecNetProfit entries accounts openings ys ye,
              "当期純利益の振替（" ++ ye ++ "）"⟩ : ClosingEntry)
          else
            some (⟨re.id, "", |yecNetProfit entries accounts openings ys ye|,
              "当期純損失の振替（" ++ ye ++ "）"⟩ : ClosingEntry)
        | none => none) = none
      rw [hre]
    · show yecClosingFrom accounts (yecFinalBalances entries accounts openings ys ye) = _
      rw [yecFinalBalances, hre]
    · show yecCarryFrom accounts (yecFinalBalances entries accounts openings ys ye) = _
      rw [yecFinalBalances, hre]

/-- C5 witness: with Sales 1000 / Expense 400 and a 繰越利益剰余金 account
holding no prior balance, the closing computes netProfit 600 and rolls −600
into retained earnings. -/
theorem calculateYearEndClosing_spec_witness :
    (calculateYearEndClosing
        [⟨"2024-05-01", "売上", "cash", "sales", 1000⟩,
         ⟨"2024-06-01", "経費", "exp", "cash", 400⟩]
        [⟨"cash", "101", "現金", .asset⟩, ⟨"sales", "401", "売上", .revenue⟩,
         ⟨"exp", "501", "消耗品費", .expense⟩, ⟨"re", "302", "繰越利益剰余金", .equity⟩]
        [] "2024-04-01" "2025-03-31").netProfit = 600
    ∧ yecFinalBalances
        [⟨"2024-05-01", "売上", "cash", "sales", 1000⟩,
         ⟨"2024-06-01", "経費", "exp", "cash", 400⟩]
        [⟨"cash", "101", "現金", .asset⟩, ⟨"sales", "401", "売上", .revenue⟩,
         ⟨"exp", "501", "消耗品費", .expense⟩, ⟨"re", "302", "繰越利益剰余金", .equity⟩]
        [] "2024-04-01" "2025-03-31" "re" = -600 := by
  have h := calculateYearEndClosing_spec
    [⟨"2024-05-01", "売上", "cash", "sales", 1000⟩,
     ⟨"2024-06-01", "経費", "exp", "cash", 400⟩]
    [⟨"cash", "101", "現金", .asset⟩, ⟨"sales", "401", "売上", .revenue⟩,
     ⟨"exp", "501", "消耗品費", .expense⟩, ⟨"re", "302", "繰越利益剰余金", .equity⟩]
    [] "2024-04-01" "2025-03-31"
  have h2 := h.2.1 ⟨"re", "302", "繰越利益剰余金", .equity⟩ (by decide)
  refine ⟨by decide, ?_⟩
  have h3 := h2.2
  rw [show (⟨"re", "302", "繰越利益剰余金", .equity⟩ : Account).id = "re" from rfl] at h3
  rw [h3]
  decide

/-- The closing and carry-forward lists name the same accounts with the same
raw-signed amounts. -/
theorem yecClosing_carry_aligned (accounts : List Account) (f : String → Int) :
    (yecClosingFrom accounts f).map (fun c => (c.accountId, c.balance))
      = (yecCarryFrom accounts f).map fun ob => (ob.accountId, ob.amount) := by
  induction accounts with
  | nil => rfl
  | cons a as ih =>
    by_cases hbs : isBalanceSheetAccount a.type = true
    · by_cases hz : f a.id = 0
      · rw [yecClosingFrom, List.filterMap_cons_none (by simp [hbs, hz]),
          yecCarryFrom, List.filterMap_cons_none (by simp [hbs, hz])]
        exact ih
      · rw [yecClosingFrom,
          List.filterMap_cons_some
            (show _ = some (⟨a.id, a.name, a.type, f a.id⟩ : ClosingBalanceItem)
              by simp [hbs, hz]),
          yecCarryFrom,
          List.filterMap_cons_some
            (show _ = some (⟨a.id, f a.id⟩ : OpeningBalance) by simp [hbs, hz]),
          List.map_cons, List.map_cons]
        simp only [List.cons.injEq]
        exact ⟨trivial, ih⟩
    · rw [yecClosingFrom, List.filterMap_cons_none (by simp [hbs]),
        yecCarryFrom, List.filterMap_cons_none (by simp [hbs])]
      exact ih

theorem mem_yecCarryFrom {accounts : List Account} {f : String → Int}
    {ob : OpeningBalance} (h : ob ∈ yecCarryFrom accounts f) :
    ∃ a ∈ accounts, a.id = ob.accountId ∧ isBalanceSheetAccount a.type = true
      ∧ ob.amount = f a.id ∧ ob.amount ≠ 0 := by
  rcases List.mem_filterMap.mp h with ⟨a, ha, heq⟩
  by_cases hbs : isBalanceSheetAccount a.type = true
  · by_cases hz : f a.id = 0
    · rw [if_pos hbs, if_pos hz] at heq
      cases heq
    · rw [if_pos hbs, if_neg hz] at heq
      cases heq
      exact ⟨a, ha, rfl, hbs, rfl, hz⟩
  · rw [if_neg hbs] at heq
    cases heq

theorem countP_yecCarryFrom (accounts : List Account) (f : String → Int)
    (a0 : Account) (hnd : (accounts.map Account.id).Nodup) (ha0 : a0 ∈ accounts)
    (hbs : isBalanceSheetAccount a0.type = true) (hz : f a0.id ≠ 0) :
    ((yecCarryFrom accounts f).countP fun ob => ob.accountId == a0.id) = 1 := by
  induction accounts with
  | nil => cases ha0
  | cons x xs ih =>
    have hpair : x.id ∉ xs.map Account.id ∧ (xs.map Account.id).Nodup := by
      rw [List.map_cons, List.nodup_cons] at hnd
      exact hnd
    obtain ⟨hndx, hndxs⟩ := hpair
    rcases List.mem_cons.mp ha0 with heq | hmem
    · subst heq
      rw [yecCarryFrom,
        List.filterMap_cons_some
          (show _ = some (⟨a0.id, f a0.id⟩ : OpeningBalance) by simp [hbs, hz]),
        List.countP_cons]
      have hzero : ((yecCarryFrom xs f).countP fun ob => ob.accountId == a0.id) = 0 := by
        refine List.countP_eq_zero.mpr fun ob hob => ?_
        rcases mem_yecCarryFrom hob with ⟨a, ha, haid, _, _, _⟩
        simp only [beq_iff_eq]
        intro hEq
        exact hndx (hEq ▸ haid ▸ List.mem_map.mpr ⟨a, ha, rfl⟩)
      show ((yecCarryFrom xs f).countP fun ob => ob.accountId == a0.id) + _ = 1
      rw [hzero]
      simp
    · have hne : x.id ≠ a0.id := by
        intro hEq
        exact hndx (hEq ▸ List.mem_map.mpr ⟨a0, hmem, rfl⟩)
      have htail := ih hndxs hmem
      by_cases hbx : isBalanceSheetAccount x.type = true
      · by_cases hzx : f x.id = 0
        · rw [yecCarryFrom, List.filterMap_cons_none (by simp [hbx, hzx])]
          exact htail
        · rw [yecCarryFrom,
            List.filterMap_cons_some
              (show _ = some (⟨x.id, f x.id⟩ : OpeningBalance) by simp [hbx, hzx]),
            List.countP_cons]
          show ((yecCarryFrom xs f).countP fun ob => ob.accountId == a0.id) + _ = 1
          rw [htail]
          simp [hne]
      · rw [yecCarryFrom, List.filterMap_cons_none (by simp [hbx])]
        exact htail

/-- C6 (amended): for every input whose account master has distinct ids,
`calculateYearEndClosing` returns closingBalances that are raw-signed — the
same sign convention and amounts as carryForwardBalances, with no display
sign flip — and carryForwardBalances in OpeningBalance format containing
exactly one record per balance-sheet (asset/liability/equity) account with
nonzero ending balance; revenue and expense accounts never appear in
carryForwardBalances. -/
theorem yearEndClosing_carryForward (entries : List JournalEntry)
    (accounts : List Account) (openings : List OpeningBalance) (ys ye : String)
    (hnd : (accounts.map Account.id).Nodup) :
    (calculateYearEndClosing entries accounts openings ys ye).closingBalances.map
        (fun c => (c.accountId, c.balance))
      = (calculateYearEndClosing entries accounts openings ys ye).carryForwardBalances.map
        (fun ob => (ob.accountId, ob.amount))
    ∧ (∀ ob ∈ (calculateYearEndClosing entries accounts openings ys ye).carryForwardBalances,
        ∃ a ∈ accounts, a.id = ob.accountId ∧ isBalanceSheetAccount a.type = true
          ∧ ob.amount = yecFinalBalances entries accounts openings ys ye a.id
          ∧ ob.amount ≠ 0)
    ∧ (∀ a ∈ accounts, isBalanceSheetAccount a.type = true →
        yecFinalBalances entries accounts openings ys ye a.id ≠ 0 →
        (((calculateYearEndClosing entries accounts openings ys ye).carryForwardBalances).countP
          fun ob => ob.accountId == a.id) = 1)
    ∧ (∀ ob ∈ (calculateYearEndClosing entries accounts openings ys ye).carryForwardBalances,
        ∀ a ∈ accounts, a.id = ob.accountId →
          a.type ≠ AccountType.revenue ∧ a.type ≠ AccountType.expense) := by
  refine ⟨yecClosing_carry_aligned accounts _, fun ob hob => mem_yecCarryFrom hob,
    fun a ha hbs hz => countP_yecCarryFrom accounts _ a hnd ha hbs hz, ?_⟩
  intro ob hob a ha haid
  rcases mem_yecCarryFrom hob with ⟨a', ha', ha'id, hbs', _, _⟩
  have : a = a' := List.inj_on_of_nodup_map hnd ha ha' (by rw [haid, ha'id])
  subst this
  cases htype : a.type <;> simp_all [isBalanceSheetAccount]

/-- C6 witness: opening Cash +300 / Capital −300 and no entries; the
carry-forward holds exactly one raw-signed record per nonzero
balance-sheet account. -/
theorem yearEndClosing_carryForward_witness :
    (calculateYearEndClosing [] [⟨"cash", "101", "現金", .asset⟩,
        ⟨"cap", "301", "資本金", .equity⟩]
      [⟨"cash", 300⟩, ⟨"cap", -300⟩] "2024-04-01" "2025-03-31").closingBalances.map
        (fun c => (c.accountId, c.balance))
      = (calculateYearEndClosing [] [⟨"cash", "101", "現金", .asset⟩,
          ⟨"cap", "301", "資本金", .equity⟩]
        [⟨"cash", 300⟩, ⟨"cap", -300⟩] "2024-04-01" "2025-03-31").carryForwardBalances.map
        (fun ob => (ob.accountId, ob.amount)) :=
  (yearEndClosing_carryForward [] [⟨"cash", "101", "現金", .asset⟩,
      ⟨"cap", "301", "資本金", .equity⟩]
    [⟨"cash", 300⟩, ⟨"cap", -300⟩] "2024-04-01" "2025-03-31" (by decide)).1

/-- C6 counterexample: with an equity account 資本金 holding a −500 raw
(credit) opening balance and no entries, the closing balance reported for it
is −500 — the raw value, not the display-adjusted +500 the claim requires
for a credit-normal account. -/
theorem yearEndClosing_closingBalances_cex :
    (calculateYearEndClosing [] [⟨"cap", "301", "資本金", .equity⟩] [⟨"cap", -500⟩]
        "2024-04-01" "2025-03-31").closingBalances.map (fun c => c.balance) = [-500]
    ∧ (calculateYearEndClosing [] [⟨"cap", "301", "資本金", .equity⟩] [⟨"cap", -500⟩]
        "2024-04-01" "2025-03-31").carryForwardBalances.map (fun ob => ob.amount) = [-500]
    ∧ ¬ (∀ c ∈ (calculateYearEndClosing [] [⟨"cap", "301", "資本金", .equity⟩]
          [⟨"cap", -500⟩] "2024-04-01" "2025-03-31").closingBalances,
        isDebitNormal c.accountType = true ∨
          c.balance = -(yecFinalBalances [] [⟨"cap", "301", "資本金", .equity⟩]
            [⟨"cap", -500⟩] "2024-04-01" "2025-03-31" c.accountId)) := by
  refine ⟨by decide, by decide, by decide⟩

/-! ### Calendar dates as JavaScript `Date` presents them

The depreciation module builds `Date` values from `YYYY-MM-DD` strings and
from year/month/day components, compares them, and reads back
`getFullYear`/`getMonth`/`getDate`.  The application runs in JST (a fixed
non-negative UTC offset): a `Date` parsed from a day-precision string (UTC
midnight) then shows the same calendar triple in local time, and every `Date`
comparison the module performs — string-parsed against string-parsed, or a
component-built local midnight against a string-parsed date on its right —
agrees with the lexicographic order of the calendar triples.  Dates are
therefore embedded as triples. -/

/-- A calendar date triple, as JavaScript `getFullYear()` /
`getMonth() + 1` / `getDate()` present it. -/
structure YMD where
  year : Int
  month : Int
  day : Int
deriving DecidableEq, Repr

/-- Gregorian leap-year rule (JavaScript `Date` is proleptic Gregorian). -/
def isLeapYear (y : Int) : Bool :=
  (y % 4 == 0 && y % 100 != 0) || y % 400 == 0

/-- Length of month `m` (1-based) of year `y`. -/
def daysInMonth (y m : Int) : Int :=
  if m = 2 then if isLeapYear y then 29 else 28
  else if m = 4 ∨ m = 6 ∨ m = 9 ∨ m = 11 then 30
  else 31

/-- Day-overflow normalisation of a component-built `Date`: a day past the
month's end rolls into the following month (fuel 4 covers every component
the sources construct). -/
def normGo : Nat → Int → Int → Int → YMD
  | 0, y, m, d => ⟨y, m, d⟩
  | fuel + 1, y, m, d =>
    if d ≤ daysInMonth y m then ⟨y, m, d⟩
    else if m = 12 then normGo fuel (y + 1) 1 (d - daysInMonth y m)
    else normGo fuel y (m + 1) (d - daysInMonth y m)

/-- `new Date(year, month0, day)` as its normalised local calendar triple:
`month0` is 0-based and may overflow into later years; `day = 0` (more
generally `day ≤ 0`, stepping back less than one month — all the sources
produce) is the last day of the previous month; a day past the month's end
rolls forward. -/
def mkDateJS (y m0 d : Int) : YMD :=
  let y1 := y + m0.fdiv 12
  let m1 := m0.emod 12 + 1
  if d ≤ 0 then
    let y2 := if m1 = 1 then y1 - 1 else y1
    let m2 := if m1 = 1 then (12 : Int) else m1 - 1
    ⟨y2, m2, daysInMonth y2 m2 + d⟩
  else normGo 4 y1 m1 d

/-- `String(n).padStart(2, '0')` on a month or day component. -/
def pad2 (n : Int) : String :=
  if n < 10 ∧ 0 ≤ n then "0" ++ toString n else toString n

/-- `formatDate` from `src/utils/depreciation.ts`: the `YYYY-MM-DD` string of
a date (local getters, zero-padded month and day). -/
def formatDate (t : YMD) : String :=
  toString t.year ++ "-" ++ pad2 t.month ++ "-" ++ pad2 t.day

/-- Decimal-digit run to number (`Number` applied to a piece of a
`YYYY-MM-DD` split). -/
def strToIntGo : List Char → Int → Int
  | [], acc => acc
  | c :: cs, acc => strToIntGo cs (acc * 10 + ((c.toNat : Int) - 48))

/-- Split a character list at `-` separators. -/
def splitDashGo : List Char → List Char → List (List Char)
  | [], acc => [acc.reverse]
  | c :: cs, acc =>
    if c = '-' then acc.reverse :: splitDashGo cs []
    else splitDashGo cs (c :: acc)

/-- Parse a `YYYY-MM-DD` string into its calendar triple — both
`split('-').map(Number)` and the local triple of a JST `new Date(s)`. -/
def parseYMD (s : String) : YMD :=
  match splitDashGo s.data [] with
  | [ys, ms, ds] => ⟨strToIntGo ys 0, strToIntGo ms 0, strToIntGo ds 0⟩
  | _ => ⟨0, 0, 0⟩

/-- Strict order on calendar triples: the order `Date` comparison induces on
the dates the depreciation module compares (see the section comment). -/
def ymdLt (a b : YMD) : Bool :=
  if a.year < b.year then true
  else if b.year < a.year then false
  else if a.month < b.month then true
  else if b.month < a.month then false
  else decide (a.day < b.day)

/-! ### Depreciation schedules (`src/utils/depreciation.ts`,
`src/types/fixedAsset.ts`) -/

/-- The binary64 value of the decimal literal `a / b` — how a JavaScript
source literal such as `0.667` is stored. -/
def dlit (a b : Int) : Frac := rnd ⟨a, b⟩

/-- Lookup in a numeric-keyed `Record` literal. -/
def tableGet (t : List (Int × Frac)) (k : Int) : Option Frac :=
  (t.find? fun p => p.1 == k).map Prod.snd

/-- `decliningBalanceRates`: the 200%-declining-balance rate table, keyed by
useful life. -/
def decliningBalanceRates : List (Int × Frac) :=
  [(2, dlit 1000 1000), (3, dlit 667 1000), (4, dlit 500 1000), (5, dlit 400 1000),
   (6, dlit 333 1000), (7, dlit 286 1000), (8, dlit 250 1000), (9, dlit 222 1000),
   (10, dlit 200 1000), (11, dlit 182 1000), (12, dlit 167 1000), (13, dlit 154 1000),
   (14, dlit 143 1000), (15, dlit 133 1000), (16, dlit 125 1000), (17, dlit 118 1000),
   (18, dlit 111 1000), (19, dlit 105 1000), (20, dlit 100 1000), (22, dlit 91 1000),
   (24, dlit 83 1000), (25, dlit 80 1000), (30, dlit 67 1000), (33, dlit 61 1000),
   (35, dlit 57 1000), (38, dlit 53 1000), (40, dlit 50 1000), (45, dlit 44 1000),
   (47, dlit 43 1000), (50, dlit 40 1000)]

/-- `guaranteeRates`: the guarantee-rate table (the useful-life-2 entry is
the literal `0.000`). -/
def guaranteeRates : List (Int × Frac) :=
  [(2, dlit 0 1000), (3, dlit 11089 100000), (4, dlit 12499 100000), (5, dlit 10800 100000),
   (6, dlit 9911 100000), (7, dlit 8680 100000), (8, dlit 7909 100000), (9, dlit 7126 100000),
   (10, dlit 6552 100000), (11, dlit 5992 100000), (12, dlit 5566 100000),
   (13, dlit 5180 100000), (14, dlit 4854 100000), (15, dlit 4565 100000),
   (16, dlit 4294 100000), (17, dlit 4038 100000), (18, dlit 3884 100000),
   (19, dlit 3693 100000), (20, dlit 3486 100000)]

/-- `revisedRates`: the revised-rate table (the useful-life-2 entry is the
literal `0.000`). -/
def revisedRates : List (Int × Frac) :=
  [(2, dlit 0 1000), (3, dlit 1000 1000), (4, dlit 1000 1000), (5, dlit 500 1000),
   (6, dlit 334 1000), (7, dlit 334 1000), (8, dlit 334 1000), (9, dlit 250 1000),
   (10, dlit 250 1000), (11, dlit 200 1000), (12, dlit 200 1000), (13, dlit 167 1000),
   (14, dlit 167 1000), (15, dlit 143 1000), (16, dlit 143 1000), (17, dlit 125 1000),
   (18, dlit 112 1000), (19, dlit 112 1000), (20, dlit 100 1000)]

/-- `getDecliningBalanceRate`: table value with the JavaScript `||` fallback
to `2 / usefulLife` — a missing key and a `0` value are both falsy. -/
def getDecliningBalanceRate (usefulLife : Int) : Frac :=
  match tableGet decliningBalanceRates usefulLife with
  | some r => if r.num = 0 then jsDiv (fOfInt 2) (fOfInt usefulLife) else r
  | none => jsDiv (fOfInt 2) (fOfInt usefulLife)

/-- `getGuaranteeRate`: table value with the `||` fallback to `0.05`; the
stored `0.000` of useful life 2 is falsy, so the fallback fires there too. -/
def getGuaranteeRate (usefulLife : Int) : Frac :=
  match tableGet guaranteeRates usefulLife with
  | some r => if r.num = 0 then dlit 5 100 else r
  | none => dlit 5 100

/-- `getRevisedRate`: table value with the `||` fallback to `1 / usefulLife`;
the stored `0.000` of useful life 2 is falsy, so the fallback fires there
too. -/
def getRevisedRate (usefulLife : Int) : Frac :=
  match tableGet revisedRates usefulLife with
  | some r => if r.num = 0 then jsDiv (fOfInt 1) (fOfInt usefulLife) else r
  | none => jsDiv (fOfInt 1) (fOfInt usefulLife)

/-- `getDepreciationMonths` from `src/utils/depreciation.ts`: the number of
depreciation months falling in one fiscal year — zero before acquisition,
starting with the month after a mid-year acquisition
(`new Date(y, month0 + 1, 1)`), cut off at a disposal date, and clamped to
`[0, 12]`. -/
def getDepreciationMonths (acquisitionDate fiscalYearStart fiscalYearEnd : String)
    (isDisposed : Bool) (disposalDate : Option String) : Int :=
  let acqDate := parseYMD acquisitionDate
  let fyStart := parseYMD fiscalYearStart
  let fyEnd := parseYMD fiscalYearEnd
  if ymdLt fyEnd acqDate then 0
  else
    let depreciationStart :=
      if ymdLt acqDate fyStart then fyStart
      else mkDateJS acqDate.year acqDate.month 1
    let depreciationEnd? :=
      if isDisposed then
        match disposalDate with
        | some dd =>
          let dispDate := parseYMD dd
          if ymdLt dispDate fyStart then none
          else some (if ymdLt dispDate fyEnd then dispDate else fyEnd)
        | none => some fyEnd
      else some fyEnd
    match depreciationEnd? with
    | none => 0
    | some depreciationEnd =>
      if ymdLt depreciationEnd depreciationStart then 0
      else
        min 12 (max 0 ((depreciationEnd.year - depreciationStart.year) * 12
          + (depreciationEnd.month - depreciationStart.month) + 1))

/-- `calculateStraightLineDepreciation`:
`Math.round((cost − residual) / usefulLife * months / 12)` in binary64
arithmetic (amounts are integral yen, exact as doubles; the division and
multiplications each round). -/
def calculateStraightLineDepreciation
    (acquisitionCost residualValue usefulLife months : Int) : Int :=
  let annualDepreciation :=
    jsDiv (fOfInt (acquisitionCost - residualValue)) (fOfInt usefulLife)
  jsRound (jsDiv (jsMul annualDepreciation (fOfInt months)) (fOfInt 12))

/-- `calculateDecliningBalanceDepreciation`: book value times the rate,
switched to the revised rate when below the guarantee amount, prorated by
months, rounded, and clipped so at least the 1-yen memorandum value
remains — all comparisons and products in binary64. -/
def calculateDecliningBalanceDepreciation
    (acquisitionCost beginningBookValue usefulLife months : Int) : Int :=
  let rate := getDecliningBalanceRate usefulLife
  let guaranteeRate := getGuaranteeRate usefulLife
  let revisedRate := getRevisedRate usefulLife
  let guaranteeAmount := jsMul (fOfInt acquisitionCost) guaranteeRate
  let normalDepreciation := jsMul (fOfInt beginningBookValue) rate
  let annualDepreciation :=
    if fLt normalDepreciation guaranteeAmount then
      jsMul (fOfInt beginningBookValue) revisedRate
    else normalDepreciation
  let monthlyDepreciation :=
    jsRound (jsDiv (jsMul annualDepreciation (fOfInt months)) (fOfInt 12))
  if beginningBookValue - monthlyDepreciation < 1 then max 0 (beginningBookValue - 1)
  else monthlyDepreciation

/-- `DepreciationMethod` union from `src/types/fixedAsset.ts`. -/
inductive DepreciationMethod
  | straight_line
  | declining_balance
deriving DecidableEq, Repr

/-- `FixedAsset` from `src/types/fixedAsset.ts`; the fields the depreciation
schedule and journal generation read are kept (`id`, `category`,
`accountId`, `memo`, `disposalAmount` and the timestamps are never read by
the embedded functions and are omitted).  Monetary fields are integral yen,
exact as doubles. -/
structure FixedAsset where
  name : String
  acquisitionDate : String
  acquisitionCost : Int
  usefulLife : Int
  depreciationMethod : DepreciationMethod
  residualValue : Int
  isDisposed : Bool
  disposalDate : Option String
deriving DecidableEq, Repr

/-- `DepreciationSchedule` from `src/types/fixedAsset.ts`: one fiscal-year
slice of an asset's depreciation schedule.  All monetary fields the loop
produces are integral (the calculators `Math.round` or subtract integers),
so they are carried as `Int`. -/
structure DepreciationSchedule where
  fiscalYear : Int
  yearStartDate : String
  yearEndDate : String
  beginningBookValue : Int
  depreciationAmount : Int
  accumulatedDepreciation : Int
  endingBookValue : Int
  months : Int
deriving DecidableEq, Repr

/-- The for-loop body of `calculateDepreciationSchedule`: `fuel` is the
remaining iteration count `numberOfYears − i`; the index `i`, the running
year, the accumulated depreciation and the beginning book value are the loop
state.  The three early exits of the source (book value down to the 1-yen
memorandum value, disposal before the year, disposal within the year after
the push) and the `continue` on a zero-month later year are kept verbatim. -/
def schedGo (asset : FixedAsset) (fyStartMonth fyStartDay : Int) :
    Nat → Nat → Int → Int → Int → List DepreciationSchedule
  | 0, _, _, _, _ => []
  | fuel + 1, i, currentYear, accumulatedDepreciation, beginningBookValue =>
    let yearStart :=
      toString currentYear ++ "-" ++ pad2 fyStartMonth ++ "-" ++ pad2 fyStartDay
    let yearEnd := formatDate (mkDateJS (currentYear + 1) (fyStartMonth - 1) (fyStartDay - 1))
    if beginningBookValue ≤ 1 then []
    else if asset.isDisposed &&
        (match asset.disposalDate with
          | some dd => strLt dd yearStart
          | none => false) then []
    else
      let months := getDepreciationMonths asset.acquisitionDate yearStart yearEnd
        asset.isDisposed asset.disposalDate
      if months = 0 ∧ 0 < i then
        schedGo asset fyStartMonth fyStartDay fuel (i + 1) (currentYear + 1)
          accumulatedDepreciation beginningBookValue
      else
        let amount0 :=
          match asset.depreciationMethod with
          | .straight_line =>
            calculateStraightLineDepreciation asset.acquisitionCost asset.residualValue
              asset.usefulLife months
          | .declining_balance =>
            calculateDecliningBalanceDepreciation asset.acquisitionCost beginningBookValue
              asset.usefulLife months
        let depreciationAmount :=
          if beginningBookValue - amount0 < 1 then beginningBookValue - 1 else amount0
        let accumulated := accumulatedDepreciation + depreciationAmount
        let endingBookValue := beginningBookValue - depreciationAmount
        let item : DepreciationSchedule :=
          ⟨currentYear, yearStart, yearEnd, beginningBookValue, depreciationAmount,
            accumulated, endingBookValue, months⟩
        if asset.isDisposed &&
            (match asset.disposalDate with
              | some dd => strLe dd yearEnd
              | none => false) then [item]
        else item :: schedGo asset fyStartMonth fyStartDay fuel (i + 1) (currentYear + 1)
          accumulated endingBookValue

/-- `calculateDepreciationSchedule` from `src/utils/depreciation.ts`: fiscal
month and day from `fiscalYearStart.split('-').map(Number)`, the first
fiscal year from the acquisition date (the previous year when the asset was
acquired before the fiscal start of its calendar year), then the year loop. -/
def calculateDepreciationSchedule (asset : FixedAsset) (fiscalYearStart : String)
    (numberOfYears : Nat) : List DepreciationSchedule :=
  let fyStartMonth := (parseYMD fiscalYearStart).month
  let fyStartDay := (parseYMD fiscalYearStart).day
  let acqDate := parseYMD asset.acquisitionDate
  let currentYear :=
    if acqDate.month < fyStartMonth ∨ (acqDate.month = fyStartMonth ∧ acqDate.day < fyStartDay)
    then acqDate.year - 1 else acqDate.year
  schedGo asset fyStartMonth fyStartDay numberOfYears 0 currentYear 0 asset.acquisitionCost

/-- The fiscal-year-end date of target fiscal year `fy`: the day before the
following year's fiscal start, exactly as the schedule loop computes its
`yearEnd`. -/
def fiscalYearEndString (fiscalYearStart : String) (fiscalYear : Int) : String :=
  formatDate (mkDateJS (fiscalYear + 1) ((parseYMD fiscalYearStart).month - 1)
    ((parseYMD fiscalYearStart).day - 1))

/-! ### Depreciation journal generation (`src/utils/depreciationJournal.ts`) -/

/-- The result record of `generateDepreciationJournals`. -/
structure DepreciationJournalResult where
  entries : List JournalEntry
  totalAmount : Int
  assetCount : Int
  errors : List String
deriving DecidableEq, Repr

/-- `findAccountByName`. -/
def findAccountByName (accounts : List Account) (name : String) : Option Account :=
  accounts.find? fun a => a.name == name

/-- `getAccumulatedDepreciationAccount`. -/
def getAccumulatedDepreciationAccount (accounts : List Account) : Option Account :=
  findAccountByName accounts "減価償却累計額"

/-- `getDepreciationExpenseAccount`. -/
def getDepreciationExpenseAccount (accounts : List Account) : Option Account :=
  findAccountByName accounts "減価償却費"

/-- The draft entry generated for one asset: its depreciation schedule is
computed over the 50-year horizon the source passes, the target fiscal
year's slice is looked up, and a nonzero current-year amount yields the
entry (`uuid` and timestamps omitted as everywhere). -/
def draftEntryOf (fiscalYearStart : String) (fiscalYear : Int) (expId accId : String)
    (asset : FixedAsset) : Option JournalEntry :=
  match (calculateDepreciationSchedule asset fiscalYearStart 50).find?
      fun s => s.fiscalYear == fiscalYear with
  | none => none
  | some s =>
    if s.depreciationAmount = 0 then none
    else some ⟨s.yearEndDate, asset.name ++ " 減価償却費", expId, accId,
      s.depreciationAmount⟩

/-- One step of the per-asset loop of `generateDepreciationJournals`. -/
def genStep (fiscalYearStart : String) (fiscalYear : Int) (expId accId : String)
    (r : DepreciationJournalResult) (asset : FixedAsset) : DepreciationJournalResult :=
  match draftEntryOf fiscalYearStart fiscalYear expId accId asset with
  | none => r
  | some e =>
    ⟨r.entries ++ [e], r.totalAmount + e.amount, r.assetCount + 1, r.errors⟩

/-- `generateDepreciationJournals` of the depreciation-journal module: fails
for the whole batch when either required account is missing, otherwise emits
one draft entry per non-disposed asset with nonzero current-year amount. -/
def generateDepreciationJournals (assets : List FixedAsset) (accounts : List Account)
    (fiscalYearStart : String) (fiscalYear : Int) : DepreciationJournalResult :=
  match getDepreciationExpenseAccount accounts with
  | none => ⟨[], 0, 0, ["勘定科目「減価償却費」が見つかりません。勘定科目マスタに追加してください。"]⟩
  | some expAcc =>
    match getAccumulatedDepreciationAccount accounts with
    | none => ⟨[], 0, 0, ["勘定科目「減価償却累計額」が見つかりません。勘定科目マスタに追加してください。"]⟩
    | some accAcc =>
      (assets.filter fun a => !a.isDisposed).foldl
        (genStep fiscalYearStart fiscalYear expAcc.id accAcc.id) ⟨[], 0, 0, []⟩

/-- `hasDepreciationJournals`: is there an entry in the window debiting the
減価償却費 account whose description mentions 減価償却費. -/
def hasDepreciationJournals (journalEntries : List JournalEntry)
    (accounts : List Account) (fiscalYearStart fiscalYearEnd : String) : Bool :=
  match getDepreciationExpenseAccount accounts with
  | none => false
  | some acc =>
    journalEntries.any fun e =>
      e.debitAccountId == acc.id && !(strLt e.date fiscalYearStart)
        && !(strLt fiscalYearEnd e.date) && strIncludes e.description "減価償却費"

theorem schedGo_yearEnd (asset : FixedAsset) (fyM fyD : Int) :
    ∀ (fuel i : Nat) (cy acc bv : Int) (s : DepreciationSchedule),
      s ∈ schedGo asset fyM fyD fuel i cy acc bv →
      s.yearEndDate = formatDate (mkDateJS (s.fiscalYear + 1) (fyM - 1) (fyD - 1)) := by
  intro fuel
  induction fuel with
  | zero =>
    intro i cy acc bv s hs
    simp [schedGo] at hs
  | succ n ih =>
    intro i cy acc bv s hs
    simp only [schedGo] at hs
    split at hs
    · simp at hs
    split at hs
    · simp at hs
    split at hs
    · exact ih _ _ _ _ _ hs
    split at hs
    · simp only [List.mem_singleton] at hs
      subst hs
      rfl
    · rcases List.mem_cons.mp hs with h | h
      · subst h
        rfl
      · exact ih _ _ _ _ _ h

theorem genStep_foldl (ys : String) (fy : Int) (expId accId : String)
    (l : List FixedAsset) :
    ∀ r : DepreciationJournalResult,
      l.foldl (genStep ys fy expId accId) r =
        ⟨r.entries ++ l.filterMap (draftEntryOf ys fy expId accId),
         r.totalAmount + ((l.filterMap (draftEntryOf ys fy expId accId)).map
            JournalEntry.amount).sum,
         r.assetCount + (l.filterMap (draftEntryOf ys fy expId accId)).length,
         r.errors⟩ := by
  induction l with
  | nil => intro r; simp
  | cons a as ih =>
    intro r
    rw [List.foldl_cons, ih]
    cases hd : draftEntryOf ys fy expId accId a with
    | none =>
      rw [List.filterMap_cons_none hd]
      rw [show genStep ys fy expId accId r a = r by rw [genStep, hd]]
    | some e =>
      rw [List.filterMap_cons_some hd]
      rw [show genStep ys fy expId accId r a
          = ⟨r.entries ++ [e], r.totalAmount + e.amount, r.assetCount + 1, r.errors⟩
        by rw [genStep, hd]]
      simp only [List.map_cons, List.sum_cons, List.length_cons,
        DepreciationJournalResult.mk.injEq]
      refine ⟨by simp, by ring, by push_cast; ring, trivial⟩

theorem mem_draftEntries {ys : String} {fy : Int} {expId accId : String}
    {l : List FixedAsset} {e : JournalEntry}
    (h : e ∈ l.filterMap (draftEntryOf ys fy expId accId)) :
    e.debitAccountId = expId ∧ e.creditAccountId = accId ∧ e.amount ≠ 0
      ∧ e.date = fiscalYearEndString ys fy := by
  rcases List.mem_filterMap.mp h with ⟨asset, _, heq⟩
  rw [draftEntryOf] at heq
  split at heq
  · cases heq
  · rename_i s hfind
    by_cases hz : s.depreciationAmount = 0
    · rw [if_pos hz] at heq
      cases heq
    · rw [if_neg hz] at heq
      cases heq
      have hmem : s ∈ calculateDepreciationSchedule asset ys 50 :=
        List.mem_of_find?_eq_some hfind
      have hfy : s.fiscalYear = fy := by
        have hp := List.find?_some hfind
        simpa using hp
      simp only [calculateDepreciationSchedule] at hmem
      have hdate := schedGo_yearEnd asset (parseYMD ys).month (parseYMD ys).day
        50 0 _ 0 asset.acquisitionCost s hmem
      rw [hfy] at hdate
      refine ⟨rfl, rfl, hz, ?_⟩
      rw [fiscalYearEndString]
      exact hdate

/-- C8: `generateDepreciationJournals` fails for the whole batch when either
the 減価償却費 or the 減価償却累計額 account is missing from the chart of
accounts — empty entry list, zero total, a named error, nothing posted — and
when both exist it emits exactly one draft entry per non-disposed asset
whose computed depreciation schedule carries a nonzero amount for the target
fiscal year, debiting the expense account and crediting the
accumulated-depreciation account for that amount, dated at the fiscal-year
end (the day before the following fiscal year's start). -/
theorem generateDepreciationJournals_spec
    (assets : List FixedAsset) (accounts : List Account) (ys : String) (fy : Int) :
    ((getDepreciationExpenseAccount accounts = none
        ∨ getAccumulatedDepreciationAccount accounts = none) →
      (generateDepreciationJournals assets accounts ys fy).entries = []
      ∧ (generateDepreciationJournals assets accounts ys fy).totalAmount = 0
      ∧ (generateDepreciationJournals assets accounts ys fy).errors ≠ [])
    ∧ (∀ expAcc accAcc, getDepreciationExpenseAccount accounts = some expAcc →
        getAccumulatedDepreciationAccount accounts = some accAcc →
        (generateDepreciationJournals assets accounts ys fy).errors = []
        ∧ (generateDepreciationJournals assets accounts ys fy).entries
          = (assets.filter fun a => !a.isDisposed).filterMap
              (draftEntryOf ys fy expAcc.id accAcc.id)
        ∧ (generateDepreciationJournals assets accounts ys fy).totalAmount
          = (((generateDepreciationJournals assets accounts ys fy).entries).map
              JournalEntry.amount).sum
        ∧ (generateDepreciationJournals assets accounts ys fy).assetCount
          = ((generateDepreciationJournals assets accounts ys fy).entries).length
        ∧ ∀ e ∈ (generateDepreciationJournals assets accounts ys fy).entries,
            e.debitAccountId = expAcc.id ∧ e.creditAccountId = accAcc.id
            ∧ e.amount ≠ 0 ∧ e.date = fiscalYearEndString ys fy) := by
  constructor
  · intro h
    rcases h with h | h
    · rw [generateDepreciationJournals, h]
      exact ⟨rfl, rfl, by simp⟩
    · cases hexp : getDepreciationExpenseAccount accounts with
      | none =>
        rw [generateDepreciationJournals, hexp]
        exact ⟨rfl, rfl, by simp⟩
      | some expAcc =>
        rw [generateDepreciationJournals, hexp, h]
        exact ⟨rfl, rfl, by simp⟩
  · intro expAcc accAcc hexp hacc
    have hred : generateDepreciationJournals assets accounts ys fy
        = ⟨(assets.filter fun a => !a.isDisposed).filterMap
             (draftEntryOf ys fy expAcc.id accAcc.id),
           (((assets.filter fun a => !a.isDisposed).filterMap
             (draftEntryOf ys fy expAcc.id accAcc.id)).map JournalEntry.amount).sum,
           ((assets.filter fun a => !a.isDisposed).filterMap
             (draftEntryOf ys fy expAcc.id accAcc.id)).length,
           []⟩ := by
      rw [generateDepreciationJournals, hexp, hacc]
      show (assets.filter fun a => !a.isDisposed).foldl
        (genStep ys fy expAcc.id accAcc.id) ⟨[], 0, 0, []⟩ = _
      rw [genStep_foldl]
      simp
    rw [hred]
    exact ⟨rfl, rfl, rfl, rfl, fun e he => mem_draftEntries he⟩

/-- C8 witness: with both system accounts present and one active
straight-line asset — cost 120000, residual value 1, useful life 5, acquired
2024-09-20, fiscal years starting April 1 — fiscal 2024 holds six months of
depreciation, and exactly one draft entry is generated: 12000 yen, debiting
減価償却費 and crediting 減価償却累計額, dated at the fiscal-year end
2025-03-31. -/
theorem generateDepreciationJournals_spec_witness :
    (generateDepreciationJournals
        [⟨"備品A", "2024-09-20", 120000, 5, .straight_line, 1, false, none⟩]
        [⟨"dep", "502", "減価償却費", .expense⟩,
         ⟨"acc", "159", "減価償却累計額", .asset⟩]
        "2024-04-01" 2024).errors = []
    ∧ (generateDepreciationJournals
        [⟨"備品A", "2024-09-20", 120000, 5, .straight_line, 1, false, none⟩]
        [⟨"dep", "502", "減価償却費", .expense⟩,
         ⟨"acc", "159", "減価償却累計額", .asset⟩]
        "2024-04-01" 2024).entries
      = [⟨"2025-03-31", "備品A 減価償却費", "dep", "acc", 12000⟩]
    ∧ fiscalYearEndString "2024-04-01" 2024 = "2025-03-31" := by
  have h := (generateDepreciationJournals_spec
    [⟨"備品A", "2024-09-20", 120000, 5, .straight_line, 1, false, none⟩]
    [⟨"dep", "502", "減価償却費", .expense⟩,
     ⟨"acc", "159", "減価償却累計額", .asset⟩]
    "2024-04-01" 2024).2
    ⟨"dep", "502", "減価償却費", .expense⟩ ⟨"acc", "159", "減価償却累計額", .asset⟩
    (by decide) (by decide)
  refine ⟨h.1, ?_, by decide⟩
  rw [h.2.1]
  decide

/-- C10: whenever no account named 減価償却費 exists in the master,
`hasDepreciationJournals` returns false for every entry list and window —
even when matching-looking entries are present — so the caller-side
duplicate-posting check is vacuous in exactly the configuration where
`generateDepreciationJournals` itself fails with a configuration error. -/
theorem hasDepreciationJournals_vacuous (journalEntries : List JournalEntry)
    (accounts : List Account) (fys fye : String)
    (h : ∀ a ∈ accounts, a.name ≠ "減価償却費") :
    hasDepreciationJournals journalEntries accounts fys fye = false
    ∧ (∀ assets fy,
        (generateDepreciationJournals assets accounts fys fy).entries = []
        ∧ (generateDepreciationJournals assets accounts fys fy).errors ≠ []) := by
  have hfind : getDepreciationExpenseAccount accounts = none := by
    rw [getDepreciationExpenseAccount, findAccountByName]
    refine List.find?_eq_none.mpr fun a ha => ?_
    simp [h a ha]
  constructor
  · rw [hasDepreciationJournals, hfind]
  · intro assets fy
    rw [generateDepreciationJournals, hfind]
    exact ⟨rfl, by simp⟩

/-- C10 witness: the master lacks a 減価償却費 account while an entry dated
inside the window carries a 減価償却費 description; the duplicate check
still reports false. -/
theorem hasDepreciationJournals_vacuous_witness :
    hasDepreciationJournals
        [⟨"2024-06-30", "備品A 減価償却費", "x", "y", 500⟩]
        [⟨"cash", "101", "現金", .asset⟩] "2024-04-01" "2025-03-31" = false :=
  (hasDepreciationJournals_vacuous
    [⟨"2024-06-30", "備品A 減価償却費", "x", "y", 500⟩]
    [⟨"cash", "101", "現金", .asset⟩] "2024-04-01" "2025-03-31" (by decide)).1

/-! ### Financial indicators (`src/utils/financialIndicators.ts`) -/

/-- Cost-of-sales account, by name. -/
def isCostOfSales (accounts : List Account) (id : String) : Bool :=
  let name := getAccountName accounts id
  name == "仕入" || strIncludes name "売上原価"

/-- Current-asset account, by name. -/
def isCurrentAsset (accounts : List Account) (id : String) : Bool :=
  let name := getAccountName accounts id
  ["現金", "普通預金", "当座預金", "売掛金", "商品", "受取手形", "有価証券", "前払"].any
    fun n => strIncludes name n

/-- Current-liability account, by name. -/
def isCurrentLiability (accounts : List Account) (id : String) : Bool :=
  let name := getAccountName accounts id
  ["買掛金", "未払", "前受", "短期借入", "支払手形", "仮受"].any
    fun n => strIncludes name n

/-- Association-list lookup modelling `Map.prototype.get` with default 0
(the key set is iterated later, so insertion order is kept). -/
def aGet (m : List (String × Int)) (k : String) : Int :=
  match m.find? fun p => p.1 == k with
  | some p => p.2
  | none => 0

/-- Association-list update modelling `Map.prototype.set`: in-place update of
an existing key, append otherwise. -/
def aSet (m : List (String × Int)) (k : String) (v : Int) : List (String × Int) :=
  if m.any fun p => p.1 == k then
    m.map fun p => if p.1 == k then (k, v) else p
  else m ++ [(k, v)]

/-- Opening balances as the initial balance map of
`calculateFinancialIndicators`. -/
def fiInit (openings : List OpeningBalance) : List (String × Int) :=
  openings.foldl (fun m ob => aSet m ob.accountId ob.amount) []

/-- One entry's effect on the balance map: only balance-sheet account types
move, debit side first. -/
def fiApplyEntry (accounts : List Account) (m : List (String × Int))
    (e : JournalEntry) : List (String × Int) :=
  let m1 :=
    match getAccountType accounts e.debitAccountId with
    | some .asset => aSet m e.debitAccountId (aGet m e.debitAccountId + e.amount)
    | some .liability => aSet m e.debitAccountId (aGet m e.debitAccountId - e.amount)
    | some .equity => aSet m e.debitAccountId (aGet m e.debitAccountId - e.amount)
    | _ => m
  match getAccountType accounts e.creditAccountId with
  | some .asset => aSet m1 e.creditAccountId (aGet m1 e.creditAccountId - e.amount)
  | some .liability => aSet m1 e.creditAccountId (aGet m1 e.creditAccountId + e.amount)
  | some .equity => aSet m1 e.creditAccountId (aGet m1 e.creditAccountId + e.amount)
  | _ => m1

/-- The balance map of `calculateFinancialIndicators`. -/
def fiBalances (accounts : List Account) (entries : List JournalEntry)
    (openings : List OpeningBalance) : List (String × Int) :=
  entries.foldl (fiApplyEntry accounts) (fiInit openings)

/-- Revenue total: entries crediting a revenue account. -/
def fiRevenue (accounts : List Account) (entries : List JournalEntry) : Int :=
  ((entries.filter fun e =>
    getAccountType accounts e.creditAccountId == some .revenue).map
      JournalEntry.amount).sum

/-- Cost-of-sales total: entries debiting an expense account matched by the
cost-of-sales pattern. -/
def fiCostOfSales (accounts : List Account) (entries : List JournalEntry) : Int :=
  ((entries.filter fun e =>
    getAccountType accounts e.debitAccountId == some .expense
      && isCostOfSales accounts e.debitAccountId).map JournalEntry.amount).sum

/-- Operating-expense total: the remaining expense debits. -/
def fiOperatingExpenses (accounts : List Account) (entries : List JournalEntry) : Int :=
  ((entries.filter fun e =>
    getAccountType accounts e.debitAccountId == some .expense
      && !isCostOfSales accounts e.debitAccountId).map JournalEntry.amount).sum

/-- Accumulators of the `balances.forEach` classification loop. -/
structure FIAgg where
  totalAssets : Int
  totalLiabilities : Int
  equity : Int
  currentAssets : Int
  currentLiabilities : Int
  receivables : Int
deriving DecidableEq, Repr

/-- One step of the classification loop over a map entry (balance, id). -/
def fiAggStep (accounts : List Account) (s : FIAgg) (p : String × Int) : FIAgg :=
  match getAccountType accounts p.1 with
  | some .asset =>
    let s1 := { s with totalAssets := s.totalAssets + p.2 }
    let s2 :=
      if isCurrentAsset accounts p.1 then
        { s1 with currentAssets := s1.currentAssets + p.2 }
      else s1
    if isReceivable accounts p.1 then
      { s2 with receivables := s2.receivables + p.2 }
    else s2
  | some .liability =>
    let s1 := { s with totalLiabilities := s.totalLiabilities - p.2 }
    if isCurrentLiability accounts p.1 then
      { s1 with currentLiabilities := s1.currentLiabilities - p.2 }
    else s1
  | some .equity => { s with equity := s.equity - p.2 }
  | _ => s

/-- The classification loop over the balance map. -/
def fiAgg (accounts : List Account) (m : List (String × Int)) : FIAgg :=
  m.foldl (fiAggStep accounts) ⟨0, 0, 0, 0, 0, 0⟩

/-- The result record of `calculateFinancialIndicators`; the ratio fields are
`none` exactly where the source stores `null`, and carry exact rationals
where the source computes floating-point quotients. -/
structure FinancialIndicators where
  grossProfitMargin : Option ℚ
  operatingProfitMargin : Option ℚ
  netProfitMargin : Option ℚ
  currentRatio : Option ℚ
  equityRatio : Option ℚ
  debtEquityRatio : Option ℚ
  totalAssetTurnover : Option ℚ
  receivablesTurnover : Option ℚ
  revenue : Int
  costOfSales : Int
  grossProfit : Int
  operatingExpenses : Int
  operatingProfit : Int
  netProfit : Int
  totalAssets : Int
  totalLiabilities : Int
  equity : Int
  currentAssets : Int
  currentLiabilities : Int
  receivables : Int
deriving DecidableEq, Repr

/-- `calculateFinancialIndicators` of `src/utils/financialIndicators.ts`. -/
def calculateFinancialIndicators (entries : List JournalEntry)
    (accounts : List Account) (openings : List OpeningBalance) :
    FinancialIndicators :=
  let m := fiBalances accounts entries openings
  let revenue := fiRevenue accounts entries
  let costOfSales := fiCostOfSales accounts entries
  let operatingExpenses := fiOperatingExpenses accounts entries
  let agg := fiAgg accounts m
  let grossProfit := revenue - costOfSales
  let operatingProfit := grossProfit - operatingExpenses
  let netProfit := operatingProfit
  ⟨if 0 < revenue then some ((grossProfit : ℚ) / (revenue : ℚ) * 100) else none,
   if 0 < revenue then some ((operatingProfit : ℚ) / (revenue : ℚ) * 100) else none,
   if 0 < revenue then some ((netProfit : ℚ) / (revenue : ℚ) * 100) else none,
   if 0 < agg.currentLiabilities then
     some ((agg.currentAssets : ℚ) / (agg.currentLiabilities : ℚ) * 100) else none,
   if 0 < agg.totalAssets then
     some ((agg.equity : ℚ) / (agg.totalAssets : ℚ) * 100) else none,
   if 0 < agg.equity then
     some ((agg.totalLiabilities : ℚ) / (agg.equity : ℚ) * 100) else none,
   if 0 < agg.totalAssets then some ((revenue : ℚ) / (agg.totalAssets : ℚ)) else none,
   if 0 < agg.receivables then some ((revenue : ℚ) / (agg.receivables : ℚ)) else none,
   revenue, costOfSales, grossProfit, operatingExpenses, operatingProfit, netProfit,
   agg.totalAssets, agg.totalLiabilities, agg.equity, agg.currentAssets,
   agg.currentLiabilities, agg.receivables⟩

/-- C9 (amended): with strictly positive entry amounts (the data-model
invariant), the three profit margins are null exactly when revenue is 0 (and
each margin is the profit over revenue × 100 otherwise); the current ratio
is null exactly when currentLiabilities ≤ 0, the debt-equity ratio exactly
when equity ≤ 0, and the receivables turnover exactly when receivables ≤ 0;
in the remaining cases each indicator is a numeric value computed from the
aggregated ledger totals. -/
theorem calculateFinancialIndicators_nulls (entries : List JournalEntry)
    (accounts : List Account) (openings : List OpeningBalance)
    (hpos : ∀ e ∈ entries, 0 < e.amount) :
    ((calculateFinancialIndicators entries accounts openings).grossProfitMargin = none
      ↔ (calculateFinancialIndicators entries accounts openings).revenue = 0)
    ∧ ((calculateFinancialIndicators entries accounts openings).operatingProfitMargin = none
      ↔ (calculateFinancialIndicators entries accounts openings).revenue = 0)
    ∧ ((calculateFinancialIndicators entries accounts openings).netProfitMargin = none
      ↔ (calculateFinancialIndicators entries accounts openings).revenue = 0)
    ∧ ((calculateFinancialIndicators entries accounts openings).currentRatio = none
      ↔ (calculateFinancialIndicators entries accounts openings).currentLiabilities ≤ 0)
    ∧ ((calculateFinancialIndicators entries accounts openings).debtEquityRatio = none
      ↔ (calculateFinancialIndicators entries accounts openings).equity ≤ 0)
    ∧ ((calculateFinancialIndicators entries accounts openings).receivablesTurnover = none
      ↔ (calculateFinancialIndicators entries accounts openings).receivables ≤ 0) := by
  have hrev : 0 ≤ fiRevenue accounts entries := by
    refine List.sum_nonneg fun x hx => ?_
    rcases List.mem_map.mp hx with ⟨e, he, rfl⟩
    exact le_of_lt (hpos e (List.mem_filter.mp he).1)
  have hopt : ∀ (X : Int) (v : ℚ),
      ((if 0 < X then some v else none) = none ↔ X ≤ 0) := by
    intro X v
    by_cases h : 0 < X
    · rw [if_pos h]
      exact iff_of_false (by simp) (by omega)
    · rw [if_neg h]
      exact iff_of_true rfl (by omega)
  refine ⟨?_, ?_, ?_, ?_, ?_, ?_⟩
  · show ((if 0 < fiRevenue accounts entries then _ else none) = none ↔ _)
    rw [hopt]
    show _ ↔ fiRevenue accounts entries = 0
    omega
  · show ((if 0 < fiRevenue accounts entries then _ else none) = none ↔ _)
    rw [hopt]
    show _ ↔ fiRevenue accounts entries = 0
    omega
  · show ((if 0 < fiRevenue accounts entries then _ else none) = none ↔ _)
    rw [hopt]
    show _ ↔ fiRevenue accounts entries = 0
    omega
  · exact hopt _ _
  · exact hopt _ _
  · exact hopt _ _

/-- C9 witness: a single sale of 100 yields revenue 100 > 0, so the margins
are numeric; the liability 買掛金 opened at −50 (a 50 credit balance) gives
currentLiabilities 50 > 0 and a numeric current ratio. -/
theorem calculateFinancialIndicators_nulls_witness :
    ((calculateFinancialIndicators
        [⟨"2024-05-01", "売上", "cash", "sales", 100⟩]
        [⟨"cash", "101", "現金", .asset⟩, ⟨"sales", "401", "売上", .revenue⟩,
         ⟨"ap", "201", "買掛金", .liability⟩]
        [⟨"ap", -50⟩]).currentRatio = none
      ↔ (calculateFinancialIndicators
        [⟨"2024-05-01", "売上", "cash", "sales", 100⟩]
        [⟨"cash", "101", "現金", .asset⟩, ⟨"sales", "401", "売上", .revenue⟩,
         ⟨"ap", "201", "買掛金", .liability⟩]
        [⟨"ap", -50⟩]).currentLiabilities ≤ 0) :=
  (calculateFinancialIndicators_nulls
    [⟨"2024-05-01", "売上", "cash", "sales", 100⟩]
    [⟨"cash", "101", "現金", .asset⟩, ⟨"sales", "401", "売上", .revenue⟩,
     ⟨"ap", "201", "買掛金", .liability⟩]
    [⟨"ap", -50⟩] (by decide)).2.2.2.1

/-- C9 counterexample: a debit-side (positive) opening balance of 100 on the
liability 買掛金 makes currentLiabilities −100 — nonzero — yet the current
ratio is null, refuting the claim that only currentLiabilities == 0 yields
null and every other case is numeric. -/
theorem calculateFinancialIndicators_nulls_cex :
    (calculateFinancialIndicators [] [⟨"ap", "201", "買掛金", .liability⟩]
        [⟨"ap", 100⟩]).currentLiabilities = -100
    ∧ (calculateFinancialIndicators [] [⟨"ap", "201", "買掛金", .liability⟩]
        [⟨"ap", 100⟩]).currentRatio = none
    ∧ ¬ ((calculateFinancialIndicators [] [⟨"ap", "201", "買掛金", .liability⟩]
        [⟨"ap", 100⟩]).currentLiabilities = 0) := by
  refine ⟨by decide, by decide, by decide⟩

end Accounting
